import Mathlib

/-!
Verification development for the `mcp_observatory` interception and policy
layer.  The Python sources are shallowly embedded: machine integers become
`Nat`/`Int` with explicit `% 2^32` where SHA-256 needs 32-bit wraparound,
floats used for risk scores become `ℚ`, dictionaries become association
lists, wall-clock reads and UUID draws become explicit parameters, and
exceptions become `Option`/`Except` results.
-/

set_option allowUnsafeReducibility true in
attribute [semireducible] Rat.add Rat.mul Rat.inv Rat.sub Rat.ofScientific

set_option maxRecDepth 1000000
set_option maxHeartbeats 2000000

namespace MCPObs

/-! ## Python text primitives (`str.strip`, `str.lower`, `\s+` collapse)

Models `re.compile(r"\s+")`-based normalization from
`mcp_observatory/utils/hashing.py` and `proposal_commit/hashing.py` for the
ASCII whitespace set recognised by Python's `\s`. -/

def isPyWs (c : Char) : Bool :=
  c = ' ' || c = '\t' || c = '\n' || c = '\x0d' || c = '\x0b' || c = '\x0c'

def pyLowerChar (c : Char) : Char :=
  if 'A' ≤ c ∧ c ≤ 'Z' then Char.ofNat (c.toNat + 32) else c

def stripChars (l : List Char) : List Char :=
  ((l.dropWhile isPyWs).reverse.dropWhile isPyWs).reverse

/-- Replace each maximal run of whitespace by a single space
(`_WS_RE.sub(" ", value)`); `inRun` records whether the previous character
was part of a whitespace run already rewritten to one space. -/
def collapseWsAux (inRun : Bool) : List Char → List Char
  | [] => []
  | c :: rest =>
    if isPyWs c then
      if inRun then collapseWsAux true rest else ' ' :: collapseWsAux true rest
    else c :: collapseWsAux false rest

def collapseWs (l : List Char) : List Char := collapseWsAux false l

/-- Embeds `normalize_text` / `normalize_prompt`:
`_WS_RE.sub(" ", value.strip().lower())`. -/
def normalizeText (value : String) : String :=
  String.mk (collapseWs ((stripChars value.data).map pyLowerChar))

/-! ## Bytes and SHA-256

Bytes are `Nat` values below 256.  SHA-256 follows FIPS 180-4, as computed
by Python's `hashlib.sha256`. -/

def w32 (n : Nat) : Nat := n % 4294967296

def rotr32 (n x : Nat) : Nat := w32 ((x >>> n) ||| (x <<< (32 - n)))

def shaK : List Nat :=
  [1116352408, 1899447441, 3049323471, 3921009573, 961987163, 1508970993,
   2453635748, 2870763221, 3624381080, 310598401, 607225278, 1426881987,
   1925078388, 2162078206, 2614888103, 3248222580, 3835390401, 4022224774,
   264347078, 604807628, 770255983, 1249150122, 1555081692, 1996064986,
   2554220882, 2821834349, 2952996808, 3210313671, 3336571891, 3584528711,
   113926993, 338241895, 666307205, 773529912, 1294757372, 1396182291,
   1695183700, 1986661051, 2177026350, 2456956037, 2730485921, 2820302411,
   3259730800, 3345764771, 3516065817, 3600352804, 4094571909, 275423344,
   430227734, 506948616, 659060556, 883997877, 958139571, 1322822218,
   1537002063, 1747873779, 1955562222, 2024104815, 2227730452, 2361852424,
   2428436474, 2756734187, 3204031479, 3329325298]

def shaH0 : List Nat :=
  [1779033703, 3144134277, 1013904242, 2773480762, 1359893119, 2600822924,
   528734635, 1541459225]

def bigSigma0 (x : Nat) : Nat := (rotr32 2 x) ^^^ (rotr32 13 x) ^^^ (rotr32 22 x)
def bigSigma1 (x : Nat) : Nat := (rotr32 6 x) ^^^ (rotr32 11 x) ^^^ (rotr32 25 x)
def smallSigma0 (x : Nat) : Nat := (rotr32 7 x) ^^^ (rotr32 18 x) ^^^ (x >>> 3)
def smallSigma1 (x : Nat) : Nat := (rotr32 17 x) ^^^ (rotr32 19 x) ^^^ (x >>> 10)
def chFn (x y z : Nat) : Nat := (x &&& y) ^^^ ((x ^^^ 4294967295) &&& z)
def majFn (x y z : Nat) : Nat := (x &&& y) ^^^ (x &&& z) ^^^ (y &&& z)

/-- Pack big-endian 4-byte groups into 32-bit words. -/
def bytesToWords : List Nat → List Nat
  | a :: b :: c :: d :: rest => (a * 16777216 + b * 65536 + c * 256 + d) :: bytesToWords rest
  | _ => []

/-- SHA-256 message padding: append `0x80`, zero fill to 56 mod 64, then the
64-bit big-endian bit length. -/
def shaPad (msg : List Nat) : List Nat :=
  let len := msg.length
  let zeros := (64 - ((len + 9) % 64)) % 64
  let bitLen := len * 8
  msg ++ [0x80] ++ List.replicate zeros 0 ++
    [(bitLen >>> 56) % 256, (bitLen >>> 48) % 256, (bitLen >>> 40) % 256, (bitLen >>> 32) % 256,
     (bitLen >>> 24) % 256, (bitLen >>> 16) % 256, (bitLen >>> 8) % 256, bitLen % 256]

/-- Extend the 16 block words to the 64-entry message schedule; the
accumulator holds the words newest-first so the four taps sit near the
head. -/
def shaSchedule (rounds : Nat) (ws : List Nat) : List Nat :=
  match rounds with
  | 0 => ws.reverse
  | r + 1 =>
    let nw := w32 (smallSigma1 (ws.getD 1 0) + ws.getD 6 0 +
                   smallSigma0 (ws.getD 14 0) + ws.getD 15 0)
    shaSchedule r (nw :: ws)

/-- The 64 rounds over the working variables `a..h`. -/
def shaRounds : List (Nat × Nat) → Nat → Nat → Nat → Nat → Nat → Nat → Nat → Nat → List Nat
  | [], a, b, c, d, e, f, g, h => [a, b, c, d, e, f, g, h]
  | (k, w) :: rest, a, b, c, d, e, f, g, h =>
    let t1 := w32 (h + bigSigma1 e + chFn e f g + k + w)
    let t2 := w32 (bigSigma0 a + majFn a b c)
    shaRounds rest (w32 (t1 + t2)) a b c (w32 (d + t1)) e f g

def shaCompress (h : List Nat) (block : List Nat) : List Nat :=
  let ws := shaSchedule 48 (bytesToWords block).reverse
  let st := shaRounds (shaK.zip ws) (h.getD 0 0) (h.getD 1 0) (h.getD 2 0) (h.getD 3 0)
    (h.getD 4 0) (h.getD 5 0) (h.getD 6 0) (h.getD 7 0)
  (h.zip st).map (fun p => w32 (p.1 + p.2))

/-- Iterate the compression function over 64-byte blocks; the fuel is any
bound on the number of blocks (the padded message length suffices). -/
def shaBlocksAux : Nat → List Nat → List Nat → List Nat
  | 0, h, _ => h
  | _ + 1, h, [] => h
  | n + 1, h, bs => shaBlocksAux n (shaCompress h (bs.take 64)) (bs.drop 64)

def wordsToBytes (ws : List Nat) : List Nat :=
  ws.flatMap (fun w => [(w >>> 24) % 256, (w >>> 16) % 256, (w >>> 8) % 256, w % 256])

/-- SHA-256 digest of a byte list, as 32 bytes. -/
def sha256 (msg : List Nat) : List Nat :=
  let padded := shaPad msg
  wordsToBytes (shaBlocksAux padded.length shaH0 padded)

def hexChar (n : Nat) : Char :=
  "0123456789abcdef".data.getD n '0'

/-- Lowercase hex rendering of bytes (Python's `.hexdigest()`). -/
def hexDigest (bs : List Nat) : String :=
  String.mk (bs.flatMap (fun b => [hexChar (b / 16 % 16), hexChar (b % 16)]))

/-- HMAC-SHA256 (`hmac.new(key, msg, sha256).digest()`). -/
def hmacSha256 (key msg : List Nat) : List Nat :=
  let k0 := if key.length > 64 then sha256 key else key
  let kPad := k0 ++ List.replicate (64 - k0.length) 0
  let ipad := kPad.map (fun b => b ^^^ 0x36)
  let opad := kPad.map (fun b => b ^^^ 0x5c)
  sha256 (opad ++ sha256 (ipad ++ msg))

/-! ## UTF-8 encoding and strict decoding -/

def utf8Char (c : Char) : List Nat :=
  let n := c.toNat
  if n < 0x80 then [n]
  else if n < 0x800 then [0xc0 + n / 64, 0x80 + n % 64]
  else if n < 0x10000 then [0xe0 + n / 4096, 0x80 + n / 64 % 64, 0x80 + n % 64]
  else [0xf0 + n / 262144, 0x80 + n / 4096 % 64, 0x80 + n / 64 % 64, 0x80 + n % 64]

def utf8Encode (s : String) : List Nat :=
  s.data.flatMap utf8Char

def isCont (b : Nat) : Bool := 0x80 ≤ b ∧ b < 0xc0

/-- Strict UTF-8 decoding (`bytes.decode("utf-8")`): rejects overlong forms,
surrogates and out-of-range code points. -/
def utf8DecodeAux (fuel : Nat) (bs : List Nat) (acc : List Char) : Option (List Char) :=
  match fuel with
  | 0 => none
  | fuel + 1 =>
    match bs with
    | [] => some acc.reverse
    | b :: rest =>
      if b < 0x80 then utf8DecodeAux fuel rest (Char.ofNat b :: acc)
      else if b < 0xc2 then none
      else if b < 0xe0 then
        match rest with
        | b2 :: rest2 =>
          if isCont b2 then
            utf8DecodeAux fuel rest2 (Char.ofNat ((b - 0xc0) * 64 + (b2 - 0x80)) :: acc)
          else none
        | _ => none
      else if b < 0xf0 then
        match rest with
        | b2 :: b3 :: rest3 =>
          if isCont b2 ∧ isCont b3 then
            let cp := (b - 0xe0) * 4096 + (b2 - 0x80) * 64 + (b3 - 0x80)
            if cp < 0x800 ∨ (0xd800 ≤ cp ∧ cp < 0xe000) then none
            else utf8DecodeAux fuel rest3 (Char.ofNat cp :: acc)
          else none
        | _ => none
      else if b < 0xf5 then
        match rest with
        | b2 :: b3 :: b4 :: rest4 =>
          if isCont b2 ∧ isCont b3 ∧ isCont b4 then
            let cp := (b - 0xf0) * 262144 + (b2 - 0x80) * 4096 + (b3 - 0x80) * 64 + (b4 - 0x80)
            if cp < 0x10000 ∨ 0x110000 ≤ cp then none
            else utf8DecodeAux fuel rest4 (Char.ofNat cp :: acc)
          else none
        | _ => none
      else none

def utf8Decode (bs : List Nat) : Option String :=
  (utf8DecodeAux (bs.length + 1) bs []).map String.mk

/-! ## URL-safe base64 (`base64.urlsafe_b64encode` / `urlsafe_b64decode`)

Decoding models CPython's `binascii.a2b_base64` in non-strict mode:
characters outside the alphabet are discarded, a pad character only counts
once at least two data characters of the current quad are present, a quad
completed by padding ends the stream (remaining input is ignored), and
leftover data characters at the end raise (here: `none`). -/

def b64Alphabet : List Char :=
  "ABCDEFGHIJKLMNOPQRSTUVWXYZabcdefghijklmnopqrstuvwxyz0123456789-_".data

def b64EncChar (n : Nat) : Char := b64Alphabet.getD n 'A'

/-- Value of a base64 character; `urlsafe_b64decode` first translates `-`/`_`
to `+`/`/`, and `+`/`/` themselves stay in the standard alphabet. -/
def b64DecChar (c : Char) : Option Nat :=
  if 'A' ≤ c ∧ c ≤ 'Z' then some (c.toNat - 65)
  else if 'a' ≤ c ∧ c ≤ 'z' then some (c.toNat - 97 + 26)
  else if '0' ≤ c ∧ c ≤ '9' then some (c.toNat - 48 + 52)
  else if c = '-' ∨ c = '+' then some 62
  else if c = '_' ∨ c = '/' then some 63
  else none

def b64EncodeChars : List Nat → List Char
  | [] => []
  | [a] => [b64EncChar (a / 4), b64EncChar (a % 4 * 16), '=', '=']
  | [a, b] => [b64EncChar (a / 4), b64EncChar (a % 4 * 16 + b / 16), b64EncChar (b % 16 * 4), '=']
  | a :: b :: c :: rest =>
    b64EncChar (a / 4) :: b64EncChar (a % 4 * 16 + b / 16) ::
      b64EncChar (b % 16 * 4 + c / 64) :: b64EncChar (c % 64) :: b64EncodeChars rest

def b64urlEncode (bs : List Nat) : String := String.mk (b64EncodeChars bs)

/-- Emit the bytes of a final quad of 2 or 3 data characters, or of a full
quad of 4. -/
def b64Emit : List Nat → List Nat
  | [q0, q1] => [q0 * 4 + q1 / 16]
  | [q0, q1, q2] => [q0 * 4 + q1 / 16, q1 % 16 * 16 + q2 / 4]
  | [q0, q1, q2, q3] => [q0 * 4 + q1 / 16, q1 % 16 * 16 + q2 / 4, q2 % 4 * 64 + q3]
  | _ => []

def b64DecodeLoop (out quad : List Nat) (pads : Nat) : List Char → Option (List Nat)
  | [] => if quad = [] then some out else none
  | c :: rest =>
    if c = '=' then
      if 2 ≤ quad.length then
        if 4 ≤ quad.length + pads + 1 then some (out ++ b64Emit quad)
        else b64DecodeLoop out quad (pads + 1) rest
      else b64DecodeLoop out quad pads rest
    else
      match b64DecChar c with
      | none => b64DecodeLoop out quad pads rest
      | some v =>
        if quad.length = 3 then b64DecodeLoop (out ++ b64Emit (quad ++ [v])) [] 0 rest
        else b64DecodeLoop out (quad ++ [v]) 0 rest

def b64urlDecode (s : String) : Option (List Nat) :=
  b64DecodeLoop [] [] 0 s.data

/-! ## JSON values, canonical serialization and parsing

Models the JSON-serializable argument bundles and token payloads.  Python's
`int` and `float` are kept apart (`json.dumps` renders `1` and `1.0`
differently); float values are carried exactly as rationals, and float
rendering implements the shortest-decimal `repr` for the decimally
representable values this development instantiates. -/

inductive Json where
  | null : Json
  | bool (b : Bool) : Json
  | int (n : Int) : Json
  | float (q : ℚ) : Json
  | str (s : String) : Json
  | arr (l : List Json) : Json
  | obj (m : List (String × Json)) : Json

def hex4 (n : Nat) : List Char :=
  [hexChar (n / 4096 % 16), hexChar (n / 256 % 16), hexChar (n / 16 % 16), hexChar (n % 16)]

/-- Escape one character as `json.dumps` does; with `ensureAscii` every
character outside `0x20..0x7e` becomes `\uXXXX` (astral code points as a
surrogate pair). -/
def escapeJsonChar (ensureAscii : Bool) (c : Char) : List Char :=
  let n := c.toNat
  if c = '"' then ['\\', '"']
  else if c = '\\' then ['\\', '\\']
  else if c = '\n' then ['\\', 'n']
  else if c = '\t' then ['\\', 't']
  else if c = '\x0d' then ['\\', 'r']
  else if c = '\x08' then ['\\', 'b']
  else if c = '\x0c' then ['\\', 'f']
  else if n < 0x20 then '\\' :: 'u' :: hex4 n
  else if ensureAscii ∧ 0x7f ≤ n then
    if n < 0x10000 then '\\' :: 'u' :: hex4 n
    else ('\\' :: 'u' :: hex4 (0xd800 + (n - 0x10000) / 0x400)) ++
         ('\\' :: 'u' :: hex4 (0xdc00 + (n - 0x10000) % 0x400))
  else [c]

def quoteJson (ensureAscii : Bool) (s : String) : String :=
  String.mk ('"' :: s.data.flatMap (escapeJsonChar ensureAscii) ++ ['"'])

def padZeros (k : Nat) (digits : List Char) : List Char :=
  List.replicate (k - digits.length) '0' ++ digits

/-- Smallest `k ≤ fuel` such that `q * 10^k` is an integer. -/
def decExponent (q : ℚ) : Nat → Option Nat
  | 0 => if (q * 1).den = 1 then some 0 else none
  | fuel + 1 =>
    match decExponent q fuel with
    | some k => some k
    | none => if (q * 10 ^ (fuel + 1) : ℚ).den = 1 then some (fuel + 1) else none

/-- Python `repr` of a float, for values with a finite decimal expansion of
moderate magnitude (the only float values this development instantiates).
Integral floats render with a trailing `.0` as in Python. -/
def floatRepr (q : ℚ) : String :=
  match decExponent q 40 with
  | none => "inf"
  | some 0 => toString q.num ++ ".0"
  | some (k + 1) =>
    let a := (q * 10 ^ (k + 1) : ℚ).num.natAbs
    let sign := if q < 0 then "-" else ""
    sign ++ toString (a / 10 ^ (k + 1)) ++ "." ++
      String.mk (padZeros (k + 1) (toString (a % 10 ^ (k + 1))).data)

/-- Lexicographic code-point comparison, as Python compares `str` values. -/
def strLtLex : List Char → List Char → Bool
  | [], [] => false
  | [], _ :: _ => true
  | _ :: _, [] => false
  | a :: as, b :: bs =>
    if a.toNat < b.toNat then true
    else if b.toNat < a.toNat then false
    else strLtLex as bs

def strLeB (a b : String) : Bool := ! strLtLex b.data a.data

def insertPair {α : Type} (p : String × α) : List (String × α) → List (String × α)
  | [] => [p]
  | q :: rest => if strLeB p.1 q.1 then p :: q :: rest else q :: insertPair p rest

/-- Stable sort of object entries by key, as `json.dumps(..., sort_keys=True)`
sorts a dict's items. -/
def sortByKey {α : Type} : List (String × α) → List (String × α)
  | [] => []
  | p :: rest => insertPair p (sortByKey rest)

mutual

/-- Embeds `json.dumps(value, sort_keys=True, separators=(",", ":"))`, with
`ensureAscii` matching the `ensure_ascii` keyword. -/
def jsonDumps (ensureAscii : Bool) : Json → String
  | .null => "null"
  | .bool b => if b then "true" else "false"
  | .int n => toString n
  | .float q => floatRepr q
  | .str s => quoteJson ensureAscii s
  | .arr l => "[" ++ String.intercalate "," (jsonDumpsList ensureAscii l) ++ "]"
  | .obj m =>
    "\x7b" ++ String.intercalate ","
      ((sortByKey (jsonDumpsEntries ensureAscii m)).map Prod.snd) ++ "\x7d"
termination_by structural v => v

def jsonDumpsList (ensureAscii : Bool) : List Json → List String
  | [] => []
  | v :: rest => jsonDumps ensureAscii v :: jsonDumpsList ensureAscii rest
termination_by structural l => l

def jsonDumpsEntries (ensureAscii : Bool) : List (String × Json) → List (String × String)
  | [] => []
  | (k, v) :: rest =>
    (k, quoteJson ensureAscii k ++ ":" ++ jsonDumps ensureAscii v) :: jsonDumpsEntries ensureAscii rest
termination_by structural l => l

end

/-! ### JSON parsing (`json.loads`, strict mode) -/

def jsonSkipWs (cs : List Char) : List Char :=
  cs.dropWhile (fun c => c = ' ' || c = '\t' || c = '\n' || c = '\x0d')

def hexVal (c : Char) : Option Nat :=
  if '0' ≤ c ∧ c ≤ '9' then some (c.toNat - 48)
  else if 'a' ≤ c ∧ c ≤ 'f' then some (c.toNat - 87)
  else if 'A' ≤ c ∧ c ≤ 'F' then some (c.toNat - 55)
  else none

def parseHex4 : List Char → Option (Nat × List Char)
  | c1 :: c2 :: c3 :: c4 :: rest =>
    match hexVal c1, hexVal c2, hexVal c3, hexVal c4 with
    | some a, some b, some c, some d => some (a * 4096 + b * 256 + c * 16 + d, rest)
    | _, _, _, _ => none
  | _ => none

/-- Parse the body of a JSON string after the opening quote.  Escaped
surrogate pairs combine into one code point; lone surrogates (which Lean's
`Char` cannot carry) are rejected, and raw control characters are rejected
as in Python's default `strict=True`. -/
def parseJsonStringBody (fuel : Nat) (cs : List Char) (acc : List Char) :
    Option (String × List Char) :=
  match fuel with
  | 0 => none
  | fuel + 1 =>
    match cs with
    | [] => none
    | '"' :: rest => some (String.mk acc.reverse, rest)
    | '\\' :: e :: rest =>
      if e = '"' then parseJsonStringBody fuel rest ('"' :: acc)
      else if e = '\\' then parseJsonStringBody fuel rest ('\\' :: acc)
      else if e = '/' then parseJsonStringBody fuel rest ('/' :: acc)
      else if e = 'b' then parseJsonStringBody fuel rest ('\x08' :: acc)
      else if e = 'f' then parseJsonStringBody fuel rest ('\x0c' :: acc)
      else if e = 'n' then parseJsonStringBody fuel rest ('\n' :: acc)
      else if e = 'r' then parseJsonStringBody fuel rest ('\x0d' :: acc)
      else if e = 't' then parseJsonStringBody fuel rest ('\t' :: acc)
      else if e = 'u' then
        match parseHex4 rest with
        | none => none
        | some (n, rest2) =>
          if n < 0xd800 ∨ 0xe000 ≤ n then
            parseJsonStringBody fuel rest2 (Char.ofNat n :: acc)
          else if n < 0xdc00 then
            match rest2 with
            | '\\' :: 'u' :: rest3 =>
              match parseHex4 rest3 with
              | some (m, rest4) =>
                if 0xdc00 ≤ m ∧ m < 0xe000 then
                  parseJsonStringBody fuel rest4
                    (Char.ofNat (0x10000 + (n - 0xd800) * 0x400 + (m - 0xdc00)) :: acc)
                else none
              | none => none
            | _ => none
          else none
      else none
    | c :: rest =>
      if c.toNat < 0x20 then none else parseJsonStringBody fuel rest (c :: acc)

def digitsVal (ds : List Char) : Nat :=
  ds.foldl (fun acc c => acc * 10 + (c.toNat - 48)) 0

def isDigit (c : Char) : Bool := '0' ≤ c ∧ c ≤ '9'

/-- Parse a JSON number per RFC 8259 grammar (no leading zeros, optional
fraction and exponent); a fraction or exponent yields a float. -/
def parseJsonNumber (cs : List Char) : Option (Json × List Char) :=
  let (neg, cs1) := match cs with
    | '-' :: rest => (true, rest)
    | _ => (false, cs)
  let intDigits := cs1.takeWhile isDigit
  let cs2 := cs1.dropWhile isDigit
  if intDigits = [] then none
  else if intDigits.length > 1 ∧ intDigits.headD '0' = '0' then none
  else
    let (fracDigits, cs3) := match cs2 with
      | '.' :: rest =>
        if (rest.takeWhile isDigit) = [] then ([], cs2)
        else (rest.takeWhile isDigit, rest.dropWhile isDigit)
      | _ => ([], cs2)
    let hasFrac := cs3 ≠ cs2
    if cs2 ≠ cs3 ∧ fracDigits = [] then none
    else
      let expPart : Option (Int × List Char) := match cs3 with
        | e :: rest =>
          if e = 'e' ∨ e = 'E' then
            let (esign, rest2) := match rest with
              | '+' :: r => ((1 : Int), r)
              | '-' :: r => ((-1 : Int), r)
              | _ => ((1 : Int), rest)
            let eDigits := rest2.takeWhile isDigit
            if eDigits = [] then none
            else some (esign * (digitsVal eDigits : Int), rest2.dropWhile isDigit)
          else none
        | [] => none
      let mantissa : Int := (digitsVal (intDigits ++ fracDigits) : Int)
      let signed : Int := if neg then -mantissa else mantissa
      match expPart with
      | some (e, cs4) =>
        let q : ℚ := (signed : ℚ) * 10 ^ (e - (fracDigits.length : Int))
        some (.float q, cs4)
      | none =>
        if hasFrac then
          some (.float ((signed : ℚ) / 10 ^ fracDigits.length), cs3)
        else
          some (.int signed, cs3)

mutual

def parseJsonValue (fuel : Nat) (cs : List Char) : Option (Json × List Char) :=
  match fuel with
  | 0 => none
  | fuel + 1 =>
    match jsonSkipWs cs with
    | 'n' :: 'u' :: 'l' :: 'l' :: rest => some (.null, rest)
    | 't' :: 'r' :: 'u' :: 'e' :: rest => some (.bool true, rest)
    | 'f' :: 'a' :: 'l' :: 's' :: 'e' :: rest => some (.bool false, rest)
    | '"' :: rest => (parseJsonStringBody (rest.length + 1) rest []).map (fun p => (.str p.1, p.2))
    | '[' :: rest =>
      match jsonSkipWs rest with
      | ']' :: rest2 => some (.arr [], rest2)
      | _ => parseJsonArrayItems fuel rest []
    | '{' :: rest =>
      match jsonSkipWs rest with
      | '}' :: rest2 => some (.obj [], rest2)
      | _ => parseJsonObjectItems fuel rest []
    | cs' => parseJsonNumber cs'

def parseJsonArrayItems (fuel : Nat) (cs : List Char) (acc : List Json) :
    Option (Json × List Char) :=
  match fuel with
  | 0 => none
  | fuel + 1 =>
    match parseJsonValue fuel cs with
    | none => none
    | some (v, rest) =>
      match jsonSkipWs rest with
      | ',' :: rest2 => parseJsonArrayItems fuel rest2 (v :: acc)
      | ']' :: rest2 => some (.arr (v :: acc).reverse, rest2)
      | _ => none

def parseJsonObjectItems (fuel : Nat) (cs : List Char) (acc : List (String × Json)) :
    Option (Json × List Char) :=
  match fuel with
  | 0 => none
  | fuel + 1 =>
    match jsonSkipWs cs with
    | '"' :: rest =>
      match parseJsonStringBody (rest.length + 1) rest [] with
      | none => none
      | some (k, rest2) =>
        match jsonSkipWs rest2 with
        | ':' :: rest3 =>
          match parseJsonValue fuel rest3 with
          | none => none
          | some (v, rest4) =>
            match jsonSkipWs rest4 with
            | ',' :: rest5 => parseJsonObjectItems fuel rest5 ((k, v) :: acc)
            | '}' :: rest5 => some (.obj ((k, v) :: acc).reverse, rest5)
            | _ => none
        | _ => none
    | _ => none
end

/-- Embeds `json.loads` on a whole document. -/
def jsonLoads (s : String) : Option Json :=
  match parseJsonValue (s.data.length + 1) s.data with
  | some (v, rest) => if jsonSkipWs rest = [] then some v else none
  | none => none

/-- Dictionary lookup on a parsed JSON object (`payload.get(key)`); a later
duplicate key wins, as when `json.loads` builds the dict. -/
def jsonGet (j : Json) (k : String) : Option Json :=
  match j with
  | .obj m => m.foldl (fun acc p => if p.1 = k then some p.2 else acc) none
  | _ => none

def jsonGetD (j : Json) (k : String) (d : Json) : Json := (jsonGet j k).getD d

/-- Python `int(...)` on the JSON values reached in the verifiers (numbers
and booleans; other payload shapes raise in Python and are outside the
states this development exercises). -/
def pyIntOf : Json → Int
  | .int n => n
  | .float q => q.num / (q.den : Int)
  | .bool b => if b then 1 else 0
  | _ => 0

/-- Python `str(...)` on the JSON values reached in the verifiers. -/
def pyStrOf : Json → String
  | .str s => s
  | .int n => toString n
  | .float q => floatRepr q
  | .bool b => if b then "True" else "False"
  | .null => "None"
  | _ => ""

/-- Truthiness of a Python `Optional[str]` (`None` and `""` are falsy). -/
def optStrFalsy : Option String → Bool
  | none => true
  | some s => s = ""

/-! ## `mcp_observatory/utils/hashing.py` -/

def sha256_hex (value : String) : String := hexDigest (sha256 (utf8Encode value))

/-- `normalize_text`: `_WS_RE.sub(" ", value.strip().lower())`. -/
def normalize_text (value : String) : String := normalizeText value

/-- `args_hash` from `utils/hashing.py`:
`sha256_hex(normalize_text(json.dumps(tool_args, sort_keys=True,
separators=(",", ":"), default=str)))` — note `ensure_ascii` is left at its
default `True` here. -/
def args_hash (tool_args : Json) : String :=
  sha256_hex (normalize_text (jsonDumps true tool_args))

/-! ## `mcp_observatory/proposal_commit/hashing.py` -/

/-- `canonical_json`: `json.dumps(value, sort_keys=True,
separators=(",", ":"), ensure_ascii=False, default=str)`. -/
def canonical_json (value : Json) : String := jsonDumps false value

def normalize_prompt (prompt : String) : String := normalizeText prompt

/-- `tool_args_hash`: `sha256_hex(canonical_json(tool_args))` — no text
normalization is applied, unlike `args_hash` above. -/
def tool_args_hash (tool_args : Json) : String := sha256_hex (canonical_json tool_args)

def prompt_hash (prompt : String) : String := sha256_hex (normalize_prompt prompt)

/-! ## `mcp_observatory/policy/types.py` and `policy/engine.py` -/

inductive Criticality where
  | LOW | MEDIUM | HIGH
deriving DecidableEq, Repr

def Criticality.value : Criticality → String
  | .LOW => "LOW"
  | .MEDIUM => "MEDIUM"
  | .HIGH => "HIGH"

inductive Decision where
  | ALLOW | BLOCK | REVIEW
deriving DecidableEq, Repr

def Decision.value : Decision → String
  | .ALLOW => "ALLOW"
  | .BLOCK => "BLOCK"
  | .REVIEW => "REVIEW"

structure ToolProfile where
  name : String
  criticality : Criticality := .LOW
  blast_radius : String := "limited"
  irreversible : Bool := false
  regulatory : Bool := false
  risk_tier : Option String := none
deriving DecidableEq, Repr

structure PolicyResult where
  decision : Decision
  reason : String
  policy_id : String
  policy_version : String
  threshold_used : ℚ
  require_token : Bool
deriving DecidableEq, Repr

structure PolicyConfig where
  policy_id : String := "risk-bound-exec-v2"
  policy_version : String := "2.0.0"
  high_block_threshold : ℚ := 35 / 100
  high_review_threshold : ℚ := 20 / 100
  medium_review_threshold : ℚ := 50 / 100
deriving DecidableEq, Repr

/-- `PolicyEngine.evaluate`; the unused `risk_tier` and opaque `context`
arguments of the Python method are dropped (`_ = (risk_tier, context)` in
the source). -/
def PolicyEngine.evaluate (config : PolicyConfig) (tool_profile : ToolProfile)
    (composite_risk_score : ℚ) : PolicyResult :=
  let c := tool_profile.criticality
  let s := composite_risk_score
  let cfg := config
  if c = .HIGH then
    if s ≥ cfg.high_block_threshold then
      ⟨.BLOCK, "high_criticality_block_threshold", cfg.policy_id, cfg.policy_version,
        cfg.high_block_threshold, true⟩
    else if s ≥ cfg.high_review_threshold then
      ⟨.REVIEW, "high_criticality_review_threshold", cfg.policy_id, cfg.policy_version,
        cfg.high_review_threshold, true⟩
    else
      ⟨.ALLOW, "high_criticality_allow", cfg.policy_id, cfg.policy_version,
        cfg.high_review_threshold, true⟩
  else if c = .MEDIUM then
    if s ≥ cfg.medium_review_threshold then
      ⟨.REVIEW, "medium_criticality_review_threshold", cfg.policy_id, cfg.policy_version,
        cfg.medium_review_threshold, false⟩
    else
      ⟨.ALLOW, "medium_criticality_allow", cfg.policy_id, cfg.policy_version,
        cfg.medium_review_threshold, false⟩
  else
    ⟨.ALLOW, "low_criticality_allow", cfg.policy_id, cfg.policy_version, 1, false⟩

/-! ## `mcp_observatory/policy/registry.py` -/

def ToolRegistry := List (String × ToolProfile)

def ToolRegistry.get (r : ToolRegistry) (tool_name : String) : ToolProfile :=
  match r.lookup tool_name with
  | some p => p
  | none => { name := tool_name, criticality := .LOW }

/-! ## `mcp_observatory/risk/scoring.py` -/

def DEFAULT_WEIGHTS : List (String × ℚ) :=
  [("grounding_risk", 30 / 100),
   ("self_consistency_risk", 25 / 100),
   ("verifier_risk", 25 / 100),
   ("numeric_instability_risk", 10 / 100),
   ("tool_mismatch_risk", 10 / 100),
   ("drift_risk", 10 / 100)]

def clamp01 (x : ℚ) : ℚ := max 0 (min 1 x)

def risk_level (score : ℚ) : String :=
  if score < 20 / 100 then "low"
  else if score < 35 / 100 then "medium"
  else "high"

/-- `composite_risk_score(components, weights)`: weighted mean with weights
renormalized over the non-null components; the `components` dict is embedded
as its lookup function. -/
def composite_risk_score (components : String → Option ℚ)
    (weights : List (String × ℚ) := DEFAULT_WEIGHTS) : ℚ × String :=
  let acc := weights.foldl
    (fun (acc : ℚ × ℚ) (p : String × ℚ) =>
      match components p.1 with
      | none => acc
      | some value => (acc.1 + clamp01 value * p.2, acc.2 + p.2))
    (0, 0)
  if acc.2 ≤ 0 then (0, "low")
  else
    let score := clamp01 (acc.1 / acc.2)
    (score, risk_level score)

/-- Spec-side formalization of `Σ wᵢ·rᵢ` over present components (used to
compare the code's fold against the specification formula). -/
def specWeightedSum (components : String → Option ℚ) (weights : List (String × ℚ)) : ℚ :=
  (weights.map (fun p =>
    match components p.1 with
    | none => 0
    | some v => v * p.2)).sum

/-- Spec-side formalization of `Σ wᵢ` over present components. -/
def specWeightSum (components : String → Option ℚ) (weights : List (String × ℚ)) : ℚ :=
  (weights.map (fun p =>
    match components p.1 with
    | none => 0
    | some _ => p.2)).sum

/-! ## `mcp_observatory/risk/signals.py` -/

def isWordChar (c : Char) : Bool := c.isAlphanum || c = '_'

def splitWordsAux : List Char → List Char → List String → List String
  | [], cur, acc => if cur = [] then acc.reverse else (String.mk cur.reverse :: acc).reverse
  | c :: rest, cur, acc =>
    if isWordChar c then splitWordsAux rest (c :: cur) acc
    else if cur = [] then splitWordsAux rest [] acc
    else splitWordsAux rest [] (String.mk cur.reverse :: acc)

/-- `_WORD_RE.findall`: maximal runs of word characters. -/
def splitWords (cs : List Char) : List String := splitWordsAux cs [] []

/-- `_tokenize(value)`: the set of word tokens of the normalized text, empty
for a falsy value. -/
def tokenizeSig (value : Option String) : Finset String :=
  match value with
  | none => ∅
  | some s => if s = "" then ∅ else (splitWords (normalize_text s).data).toFinset

def jaccard (a b : Finset String) : ℚ :=
  if a = ∅ ∧ b = ∅ then 1
  else if a ∪ b = ∅ then 1
  else ((a ∩ b).card : ℚ) / ((a ∪ b).card : ℚ)

def drift_risk (previous_prompt_hash : Option String) (current_prompt_hash : String) : ℚ :=
  if optStrFalsy previous_prompt_hash then 0
  else if previous_prompt_hash = some current_prompt_hash then 0
  else 1

def grounding_risk (answer : String) (retrieved_context : Option String) : Option ℚ :=
  if optStrFalsy retrieved_context then none
  else some (clamp01 (1 - jaccard (tokenizeSig (some answer)) (tokenizeSig retrieved_context)))

def self_consistency_risk (answer : String) (secondary_answer : Option String) : Option ℚ :=
  if optStrFalsy secondary_answer then none
  else some (clamp01 (1 - jaccard (tokenizeSig (some answer)) (tokenizeSig secondary_answer)))

def isNumSign (c : Char) : Bool := c = '+' || c = '-'

/-- Match `_NUM_RE = re.compile(r"[-+]?\d*\.?\d+")` at the head of the
character list (leftmost-greedy, equivalently the longest prefix in the
pattern's language), returning the parsed value and the rest. -/
def matchNumAt (cs : List Char) : Option (ℚ × List Char) :=
  let (sgn, cs1) : ℚ × List Char := match cs with
    | '-' :: rest => (-1, rest)
    | '+' :: rest => (1, rest)
    | _ => (1, cs)
  let d1 := cs1.takeWhile isDigit
  let cs2 := cs1.dropWhile isDigit
  match cs2 with
  | '.' :: cs3 =>
    let d2 := cs3.takeWhile isDigit
    if d2 ≠ [] then
      some (sgn * ((digitsVal d1 : ℚ) + (digitsVal d2 : ℚ) / 10 ^ d2.length), cs3.dropWhile isDigit)
    else if d1 ≠ [] then some (sgn * (digitsVal d1 : ℚ), cs2)
    else none
  | _ =>
    if d1 ≠ [] then some (sgn * (digitsVal d1 : ℚ), cs2)
    else none

def scanNumsAux (fuel : Nat) (cs : List Char) (acc : List ℚ) : List ℚ :=
  match fuel with
  | 0 => acc.reverse
  | fuel + 1 =>
    match cs with
    | [] => acc.reverse
    | c :: rest =>
      match matchNumAt (c :: rest) with
      | some (q, rest') => scanNumsAux fuel rest' (q :: acc)
      | none => scanNumsAux fuel rest acc

/-- `_extract_numbers(text)`: all non-overlapping `_NUM_RE` matches as
values. -/
def extract_numbers (text : Option String) : List ℚ :=
  match text with
  | none => []
  | some s => if s = "" then [] else scanNumsAux (s.data.length + 1) s.data []

def listMean (l : List ℚ) : ℚ := l.sum / (l.length : ℚ)

def pyMax (l : List ℚ) : ℚ :=
  match l with
  | [] => 0
  | x :: rest => rest.foldl max x

def pyMin (l : List ℚ) : ℚ :=
  match l with
  | [] => 0
  | x :: rest => rest.foldl min x

def numericSpread (primary : List ℚ) : Option ℚ :=
  if primary.length < 2 then some 0
  else some (clamp01 ((pyMax primary - pyMin primary) / max (1 / 1000000000) |listMean primary|))

def numeric_instability_risk (answer : String) (secondary_answer : Option String) : Option ℚ :=
  let primary := extract_numbers (some answer)
  if primary = [] then none
  else
    match secondary_answer with
    | some s =>
      if s = "" then numericSpread primary
      else
        let secondary := extract_numbers (some s)
        let n := min primary.length secondary.length
        if n = 0 then some 1
        else
          let diffs := (List.range n).map (fun i =>
            |primary.getD i 0 - secondary.getD i 0| / max (1 / 1000000000) |primary.getD i 0|)
          some (clamp01 (listMean diffs))
    | none => numericSpread primary

def containsSub : List Char → List Char → Bool
  | [], pat => pat.isEmpty
  | h :: t, pat => pat.isPrefixOf (h :: t) || containsSub t pat

def strContains (s pat : String) : Bool := containsSub s.data pat.data

def failureMarkers : List String := ["fail", "error", "declined", "denied", "timeout"]
def successMarkers : List String := ["success", "completed", "done", "sent", "processed"]

def tool_mismatch_risk (answer : String) (tool_result_summary : Option String) : ℚ :=
  if optStrFalsy tool_result_summary then 0
  else
    let answer_n := normalize_text answer
    let tool_n := normalize_text ((tool_result_summary).getD "")
    let tool_failed := failureMarkers.any (fun m => strContains tool_n m)
    let answer_claims_success := successMarkers.any (fun m => strContains answer_n m)
    if tool_failed ∧ answer_claims_success then 1 else 0

def hedgingMarkers : List String := ["maybe", "not sure", "possibly", "might"]
def absoluteMarkers : List String := ["always", "definitely", "guaranteed", "never"]

def verifier_risk (answer : String) (low_grounding : Bool) : ℚ :=
  let text := normalize_text answer
  let score : ℚ := 1
  let score := if hedgingMarkers.any (fun t => strContains text t) then score - 2 / 10 else score
  let score := if absoluteMarkers.any (fun t => strContains text t) then score - 15 / 100 else score
  let score := if low_grounding then score - 25 / 100 else score
  clamp01 (1 - clamp01 score)

/-! ## `mcp_observatory/risk/vector.py` -/

structure RiskVector where
  prompt_hash : String
  grounding_risk : Option ℚ
  self_consistency_risk : Option ℚ
  numeric_instability_risk : Option ℚ
  tool_mismatch_risk : ℚ
  drift_risk : ℚ
  verifier_risk : ℚ
  composite_risk_score : ℚ
  composite_risk_level : String
deriving DecidableEq, Repr

/-- The components dict literal built inside `compute_risk_vector`, as its
lookup function. -/
def riskComponents (g sc v ni : Option ℚ) (tm d : ℚ) : String → Option ℚ :=
  fun name =>
    (([("grounding_risk", g), ("self_consistency_risk", sc), ("verifier_risk", v),
       ("numeric_instability_risk", ni), ("tool_mismatch_risk", some tm),
       ("drift_risk", some d)] : List (String × Option ℚ)).lookup name).getD none

def compute_risk_vector (prompt answer : String)
    (retrieved_context secondary_answer tool_result_summary previous_prompt_hash : Option String) :
    RiskVector :=
  let p_hash := prompt_hash prompt
  let g_risk := grounding_risk answer retrieved_context
  let sc_risk := self_consistency_risk answer secondary_answer
  let ni_risk := numeric_instability_risk answer secondary_answer
  let tm_risk := tool_mismatch_risk answer tool_result_summary
  let d_risk := drift_risk previous_prompt_hash p_hash
  let v_risk := verifier_risk answer (match g_risk with
    | some g => g > 75 / 100
    | none => false)
  let sl := composite_risk_score (riskComponents g_risk sc_risk (some v_risk) ni_risk tm_risk d_risk)
  { prompt_hash := p_hash
    grounding_risk := g_risk
    self_consistency_risk := sc_risk
    numeric_instability_risk := ni_risk
    tool_mismatch_risk := tm_risk
    drift_risk := d_risk
    verifier_risk := v_risk
    composite_risk_score := sl.1
    composite_risk_level := sl.2 }

/-! ## Token plumbing shared by both token systems -/

/-- `token.split(".", 1)` when at least one dot is present; the unpacking
`payload_b64, sig_b64 = ...` raises for a dot-free token, which both
verifiers catch. -/
def splitFirstDotAux : List Char → List Char → Option (String × String)
  | [], _ => none
  | '.' :: rest, acc => some (String.mk acc.reverse, String.mk rest)
  | c :: rest, acc => splitFirstDotAux rest (c :: acc)

def splitFirstDot (s : String) : Option (String × String) := splitFirstDotAux s.data []

/-- `json.loads(payload_raw.decode("utf-8"))`. -/
def jsonLoadsBytes (bs : List Nat) : Option Json := (utf8Decode bs).bind jsonLoads

/-- Compare a JSON dict entry against an expected Python string:
`payload.get(key) != expected` is true unless the value is the equal
string. -/
def jsonStrMismatch (payload : Json) (key expected : String) : Bool :=
  match jsonGet payload key with
  | some (.str s) => s ≠ expected
  | _ => true

/-! ## `mcp_observatory/token/issuer.py` and `token/verifier.py`

Wall-clock reads (`utc_now().timestamp() * 1000`) and `uuid4()` draws are
passed in as explicit arguments. -/

structure IssuedToken where
  token : String
  token_id : String
  token_hash : String
  ttl_ms : Int
  payload : Json

structure VerificationResult where
  valid : Bool
  reason : String
  payload : Option Json := none

def TokenIssuer.issue (secret : List Nat) (ttl_ms : Int) (now_ms : Int)
    (token_id nonce : String) (trace_id tool_name tool_args_hash decision : String)
    (composite_risk_score : ℚ) : IssuedToken :=
  let payload : Json := .obj
    [("token_id", .str token_id),
     ("trace_id", .str trace_id),
     ("tool_name", .str tool_name),
     ("tool_args_hash", .str tool_args_hash),
     ("decision", .str decision),
     ("composite_risk_score", .float composite_risk_score),
     ("issued_at", .int now_ms),
     ("expires_at", .int (now_ms + ttl_ms)),
     ("nonce", .str nonce)]
  let payload_raw := utf8Encode (jsonDumps true payload)
  let sig := hmacSha256 secret payload_raw
  let token := b64urlEncode payload_raw ++ "." ++ b64urlEncode sig
  { token := token, token_id := token_id, token_hash := sha256_hex token,
    ttl_ms := ttl_ms, payload := payload }

/-- `TokenVerifier._gc(now_ms)`: drop replay-set entries with
`expires_at <= now_ms`. -/
def gcSeen (seen : List (String × Int)) (now_ms : Int) : List (String × Int) :=
  seen.filter (fun p => ¬ p.2 ≤ now_ms)

/-- Dict insert `self._seen[token_id] = exp` (overwrite or append). -/
def seenInsert (seen : List (String × Int)) (k : String) (v : Int) : List (String × Int) :=
  if (seen.lookup k).isSome then seen.map (fun p => if p.1 = k then (k, v) else p)
  else seen ++ [(k, v)]

/-- `TokenVerifier.verify`; the replay set `self._seen` is threaded as
explicit state. -/
def TokenVerifier.verify (secret : List Nat) (replay_protection : Bool)
    (seen : List (String × Int)) (token tool_name tool_args_hash : String) (now_ms : Int) :
    VerificationResult × List (String × Int) :=
  match splitFirstDot token with
  | none => (⟨false, "token_decode_failed", none⟩, seen)
  | some (payload_b64, sig_b64) =>
    match b64urlDecode payload_b64, b64urlDecode sig_b64 with
    | some payload_raw, some sig =>
      let expected_sig := hmacSha256 secret payload_raw
      if sig ≠ expected_sig then (⟨false, "invalid_signature", none⟩, seen)
      else
        match jsonLoadsBytes payload_raw with
        | none => (⟨false, "invalid_payload_json", none⟩, seen)
        | some payload =>
          let exp := pyIntOf (jsonGetD payload "expires_at" (.int 0))
          if exp ≤ now_ms then (⟨false, "token_expired", some payload⟩, seen)
          else if jsonStrMismatch payload "tool_name" tool_name then
            (⟨false, "tool_name_mismatch", some payload⟩, seen)
          else if jsonStrMismatch payload "tool_args_hash" tool_args_hash then
            (⟨false, "tool_args_hash_mismatch", some payload⟩, seen)
          else
            let token_id := pyStrOf (jsonGetD payload "token_id" (.str ""))
            if replay_protection ∧ token_id ≠ "" then
              let seen' := gcSeen seen now_ms
              if (seen'.lookup token_id).isSome then
                (⟨false, "token_replay_detected", some payload⟩, seen')
              else (⟨true, "ok", some payload⟩, seenInsert seen' token_id exp)
            else (⟨true, "ok", some payload⟩, seen)
    | _, _ => (⟨false, "token_decode_failed", none⟩, seen)

/-! ## `mcp_observatory/proposal_commit/token.py` -/

structure TokenIssueResult where
  token : String
  token_id : String
  payload : Json

structure TokenVerifyResult where
  valid : Bool
  reason : String
  payload : Option Json := none

/-- `CommitTokenManager.issue`; times are POSIX seconds (`int(time())`). -/
def CommitTokenManager.issue (secret : List Nat) (ttl_seconds : Int) (now : Int)
    (token_id nonce : String) (proposal_id tool_name tool_args_hash : String)
    (composite_score : ℚ) : TokenIssueResult :=
  let payload : Json := .obj
    [("token_id", .str token_id),
     ("proposal_id", .str proposal_id),
     ("tool_name", .str tool_name),
     ("tool_args_hash", .str tool_args_hash),
     ("issued_at", .int now),
     ("expires_at", .int (now + ttl_seconds)),
     ("nonce", .str nonce),
     ("composite_score", .float composite_score)]
  let payload_raw := utf8Encode (jsonDumps true payload)
  let sig := hmacSha256 secret payload_raw
  { token := b64urlEncode payload_raw ++ "." ++ b64urlEncode sig,
    token_id := token_id, payload := payload }

/-- `CommitTokenManager.verify`: decode, signature and JSON failures all
surface as `bad_signature`; expiry as `expired`. -/
def CommitTokenManager.verify (secret : List Nat) (token : String) (now : Int) :
    TokenVerifyResult :=
  match splitFirstDot token with
  | none => ⟨false, "bad_signature", none⟩
  | some (payload_b64, sig_b64) =>
    match b64urlDecode payload_b64, b64urlDecode sig_b64 with
    | some payload_raw, some sig =>
      let expected := hmacSha256 secret payload_raw
      if ¬ sig = expected then ⟨false, "bad_signature", none⟩
      else
        match jsonLoadsBytes payload_raw with
        | none => ⟨false, "bad_signature", none⟩
        | some payload =>
          if pyIntOf (jsonGetD payload "expires_at" (.int 0)) ≤ now then
            ⟨false, "expired", some payload⟩
          else ⟨true, "ok", some payload⟩
    | _, _ => ⟨false, "bad_signature", none⟩

/-! ## `mcp_observatory/proposal_commit/storage.py` (`InMemoryStorage`) -/

structure ProposalRow where
  proposal_id : String
  tool_name : String
  args_json : String
  prompt_hash : String
  composite_score : ℚ
  decision : String
  created_at : Int
deriving DecidableEq, Repr

structure CommitRow where
  commit_id : String
  proposal_id : String
  token_id : Option String
  decision : String
  verification_reason : String
  created_at : Int
deriving DecidableEq, Repr

structure Storage where
  baseline : List (String × String) := []
  proposals : List (String × ProposalRow) := []
  commits : List (String × CommitRow) := []
  nonces : List (String × String × Int) := []
deriving DecidableEq, Repr

def Storage.get_proposal (st : Storage) (proposal_id : String) : Option ProposalRow :=
  st.proposals.lookup proposal_id

def Storage.save_commit (st : Storage) (row : CommitRow) : Storage :=
  { st with commits := st.commits ++ [(row.commit_id, row)] }

/-- `InMemoryStorage.nonce_seen`: purge expired nonces, then atomically
check-and-insert; returns whether the nonce was already present. -/
def Storage.nonce_seen (st : Storage) (nonce token_id : String) (expires_at : Int)
    (now : Int) : Bool × Storage :=
  let purged := st.nonces.filter (fun p => ¬ p.2.2 ≤ now)
  if (purged.lookup nonce).isSome then (true, { st with nonces := purged })
  else (false, { st with nonces := purged ++ [(nonce, token_id, expires_at)] })

/-! ## `mcp_observatory/proposal_commit/verifier.py` -/

structure CommitVerification where
  ok : Bool
  reason : String
deriving DecidableEq, Repr

/-- `CommitVerifier.verify_commit`; the storage backend is threaded as
explicit state and `utc_now`/`time()` is the `now` argument (POSIX
seconds).  The source's `assert token_check.payload is not None` cannot
fire because `verify` always attaches the payload to a valid result; the
corresponding unreachable branch is marked `assertion_failed`. -/
def CommitVerifier.verify_commit (secret : List Nat) (st : Storage)
    (proposal_id commit_token tool_name : String) (tool_args : Json) (now : Int) :
    CommitVerification × Storage :=
  match st.get_proposal proposal_id with
  | none => (⟨false, "unknown_proposal"⟩, st)
  | some proposal =>
    if proposal.decision ≠ "allow" then (⟨false, "unknown_proposal"⟩, st)
    else
      let token_check := CommitTokenManager.verify secret commit_token now
      if ¬ token_check.valid then (⟨false, token_check.reason⟩, st)
      else
        match token_check.payload with
        | none => (⟨false, "assertion_failed"⟩, st)
        | some payload =>
          if jsonStrMismatch payload "proposal_id" proposal_id then
            (⟨false, "unknown_proposal"⟩, st)
          else if jsonStrMismatch payload "tool_name" tool_name then
            (⟨false, "args_hash_mismatch"⟩, st)
          else
            let args_digest := tool_args_hash tool_args
            if jsonStrMismatch payload "tool_args_hash" args_digest then
              (⟨false, "args_hash_mismatch"⟩, st)
            else
              let expires_at := pyIntOf (jsonGetD payload "expires_at" (.int 0))
              let ns := st.nonce_seen (pyStrOf (jsonGetD payload "nonce" .null))
                (pyStrOf (jsonGetD payload "token_id" .null)) expires_at now
              if ns.1 then (⟨false, "nonce_replay"⟩, ns.2)
              else (⟨true, "ok"⟩, ns.2)

/-- The caller-controlled inputs of one `verify_commit` call. -/
structure CommitCall where
  proposal_id : String
  commit_token : String
  tool_name : String
  tool_args : Json
  now : Int

/-- Run a sequence of `verify_commit` calls for their storage effects. -/
def runCommitCalls (secret : List Nat) (calls : List CommitCall) (st : Storage) : Storage :=
  calls.foldl
    (fun s c =>
      (CommitVerifier.verify_commit secret s c.proposal_id c.commit_token c.tool_name
        c.tool_args c.now).2)
    st

/-- `CommitVerifier.record_commit` (the `uuid4()` commit id and `utc_now()`
are passed in). -/
def CommitVerifier.record_commit (st : Storage) (commit_id proposal_id : String)
    (token_id : Option String) (decision verification_reason : String)
    (created_at : Int) : String × Storage :=
  (commit_id, st.save_commit
    { commit_id := commit_id, proposal_id := proposal_id, token_id := token_id,
      decision := decision, verification_reason := verification_reason,
      created_at := created_at })

/-! ## `mcp_observatory/fallback/templates.py` and `fallback/router.py` -/

structure ResponseTemplate where
  status : String
  tool : String
  reason : String
  message : String
deriving DecidableEq, Repr

def block_response_template (tool_name reason : String) : ResponseTemplate :=
  { status := "blocked", tool := tool_name, reason := reason,
    message := "Execution blocked by MCP Observatory policy." }

def review_response_template (tool_name reason : String) : ResponseTemplate :=
  { status := "review_required", tool := tool_name, reason := reason,
    message := "Execution requires human review before proceeding." }

/-- A value returned to the caller of the interceptor: a tool/handler
result or a template dict. -/
def PyAny (α : Type) := α ⊕ ResponseTemplate

def FallbackRouter (α : Type) := List (String × (Json → α))

/-- `FallbackRouter.route`: a registered handler's result labelled
`"safe_tool"`, otherwise the block template labelled `"template"`. -/
def FallbackRouter.route {α : Type} (routes : FallbackRouter α) (tool_name : String)
    (tool_args : Json) (reason : String) : PyAny α × String :=
  match List.lookup tool_name routes with
  | none => (Sum.inr (block_response_template tool_name reason), "template")
  | some fn => (Sum.inl (fn tool_args), "safe_tool")

/-! ## `mcp_observatory/core/context.py` and `core/interceptor.py`
(tool-call path)

The trace context carries the dataclass fields the tool path touches plus
the attributes `intercept_tool_call` assigns dynamically; `finish()` is the
`ended` flag (wall-clock timestamps abstracted).  Exceptions raised by the
exporter become `Except.error`; `uuid4()` draws and clock reads are
supplied by a `CallEnv`. -/

def pyLowerStr (s : String) : String := String.mk (s.data.map pyLowerChar)

structure TraceContext where
  service : String
  model : Option String := none
  tool_name : Option String := none
  trace_id : String
  span_id : String
  parent_span_id : Option String := none
  ended : Bool := false
  fallback_used : Bool := false
  risk_tier : Option String := none
  prompt_template_id : Option String := none
  prompt_hash : Option String := none
  fallback_type : Option String := none
  fallback_reason : Option String := none
  request_id : Option String := none
  session_id : Option String := none
  method : Option String := none
  tool_args_hash : Option String := none
  grounding_risk : Option ℚ := none
  self_consistency_risk : Option ℚ := none
  numeric_instability_risk : Option ℚ := none
  tool_mismatch_risk : Option ℚ := none
  drift_risk : Option ℚ := none
  verifier_score : Option ℚ := none
  composite_risk_score : Option ℚ := none
  composite_risk_level : Option String := none
  tool_criticality : Option String := none
  policy_decision : Option String := none
  policy_id : Option String := none
  policy_version : Option String := none
  exec_token_id : Option String := none
  exec_token_hash : Option String := none
  exec_token_ttl_ms : Option Int := none
  exec_token_verified : Option Bool := none
deriving DecidableEq, Repr

structure V2Config where
  enabled : Bool := true
  shadow_for_high_risk : Bool := true
deriving DecidableEq, Repr

/-- The collaborators injected into `MCPInterceptor.__init__` that the
tool-call path uses (the hallucination config and verifier only matter on
the model-call path). -/
structure Interceptor (α : Type) where
  service : String
  exporter : Option (TraceContext → Except String Unit) := none
  tool_registry : ToolRegistry := []
  policy_config : PolicyConfig := {}
  issuer_secret : List Nat := utf8Encode "dev-secret"
  issuer_ttl_ms : Int := 30000
  verifier_secret : List Nat := utf8Encode "dev-secret"
  verifier_replay_protection : Bool := true
  fallback_router : FallbackRouter α := []
  v2_config : V2Config := {}

/-- Nondeterministic inputs of one `intercept_tool_call` run: the span and
token UUIDs and the two wall-clock reads (issue and verify). -/
structure CallEnv where
  trace_id : String
  span_id : String
  new_request_id : String
  token_id : String
  nonce : String
  issue_now_ms : Int
  verify_now_ms : Int

structure InterceptOutcome (α : Type) where
  result : Except String (PyAny α)
  ctx : TraceContext
  tool_invoked : Bool
  shadow_scheduled : Bool
  verifier_seen : List (String × Int)

/-- `request_id or str(uuid4())`. -/
def pyOrNewId (request_id : Option String) (fresh : String) : String :=
  match request_id with
  | some s => if s = "" then fresh else s
  | none => fresh

/-- The REVIEW / BLOCK / ALLOW branching of `intercept_tool_call`, producing
the pre-export result, the mutated context, whether `tool_fn` ran, and the
verifier replay-set state. -/
def interceptBranch {α : Type} (I : Interceptor α) (seen : List (String × Int))
    (env : CallEnv) (tool_name : String) (tool_args : Json) (tool_fn : Json → α)
    (policy : PolicyResult) (rv : RiskVector) (ctx : TraceContext) :
    PyAny α × TraceContext × Bool × List (String × Int) :=
  if policy.decision = .REVIEW then
    (Sum.inr (review_response_template tool_name policy.reason),
     { ctx with fallback_used := true, fallback_type := some "human_review",
                fallback_reason := some policy.reason },
     false, seen)
  else if policy.decision = .BLOCK then
    let r := FallbackRouter.route I.fallback_router tool_name tool_args policy.reason
    (r.1,
     { ctx with fallback_used := true, fallback_reason := some policy.reason,
                fallback_type := some r.2 },
     false, seen)
  else if policy.require_token then
    let issued := TokenIssuer.issue I.issuer_secret I.issuer_ttl_ms env.issue_now_ms
      env.token_id env.nonce env.trace_id tool_name (args_hash tool_args)
      policy.decision.value rv.composite_risk_score
    let ctx := { ctx with exec_token_id := some issued.token_id,
                          exec_token_hash := some issued.token_hash,
                          exec_token_ttl_ms := some issued.ttl_ms }
    let vr := TokenVerifier.verify I.verifier_secret I.verifier_replay_protection seen
      issued.token tool_name (args_hash tool_args) env.verify_now_ms
    let ctx := { ctx with exec_token_verified := some vr.1.valid }
    if vr.1.valid then (Sum.inl (tool_fn tool_args), ctx, true, vr.2)
    else
      let r := FallbackRouter.route I.fallback_router tool_name tool_args vr.1.reason
      (r.1,
       { ctx with fallback_used := true, fallback_reason := some vr.1.reason,
                  fallback_type := some r.2 },
       false, vr.2)
  else
    (Sum.inl (tool_fn tool_args), { ctx with exec_token_verified := none }, true, seen)

/-- `MCPInterceptor.intercept_tool_call`. -/
def intercept_tool_call {α : Type} (I : Interceptor α) (seen : List (String × Int))
    (env : CallEnv) (tool_name : String) (tool_args : Json) (tool_fn : Json → α)
    (model_answer : String)
    (tool_result_summary retrieved_context prompt_template_id : Option String)
    (prompt : String := "") (secondary_answer : Option String := none)
    (previous_prompt_hash : Option String := none) (request_id : Option String := none)
    (session_id : Option String := none) : InterceptOutcome α :=
  let ctx : TraceContext :=
    { service := I.service, model := some "tool-execution", tool_name := some tool_name,
      trace_id := env.trace_id, span_id := env.span_id,
      request_id := some (pyOrNewId request_id env.new_request_id),
      session_id := session_id, method := some "tools/call",
      prompt_template_id := prompt_template_id,
      tool_args_hash := some (args_hash tool_args) }
  let rv := compute_risk_vector prompt model_answer retrieved_context secondary_answer
    tool_result_summary previous_prompt_hash
  let ctx := { ctx with
    prompt_hash := some rv.prompt_hash,
    grounding_risk := rv.grounding_risk,
    self_consistency_risk := rv.self_consistency_risk,
    numeric_instability_risk := rv.numeric_instability_risk,
    tool_mismatch_risk := some rv.tool_mismatch_risk,
    drift_risk := some rv.drift_risk,
    verifier_score := some (1 - rv.verifier_risk),
    composite_risk_score := some rv.composite_risk_score,
    composite_risk_level := some rv.composite_risk_level,
    risk_tier := some rv.composite_risk_level }
  let profile := I.tool_registry.get tool_name
  let ctx := { ctx with tool_criticality := some (pyLowerStr profile.criticality.value) }
  let policy := PolicyEngine.evaluate I.policy_config profile rv.composite_risk_score
  let ctx := { ctx with policy_decision := some policy.decision.value,
                        policy_id := some policy.policy_id,
                        policy_version := some policy.policy_version }
  let br := interceptBranch I seen env tool_name tool_args tool_fn policy rv ctx
  let ctx := { br.2.1 with ended := true }
  match I.exporter with
  | some ex =>
    match ex ctx with
    | .error e =>
      { result := .error e, ctx := ctx, tool_invoked := br.2.2.1,
        shadow_scheduled := false, verifier_seen := br.2.2.2 }
    | .ok _ =>
      { result := .ok br.1, ctx := ctx, tool_invoked := br.2.2.1,
        shadow_scheduled := I.v2_config.shadow_for_high_risk ∧
          ctx.composite_risk_level = some "high",
        verifier_seen := br.2.2.2 }
  | none =>
    { result := .ok br.1, ctx := ctx, tool_invoked := br.2.2.1,
      shadow_scheduled := I.v2_config.shadow_for_high_risk ∧
        ctx.composite_risk_level = some "high",
      verifier_seen := br.2.2.2 }

/-! ## Association list lemmas -/

theorem lookup_filter_of_none {β : Type} (l : List (String × β)) (k : String)
    (p : String × β → Bool) (h : l.lookup k = none) : (l.filter p).lookup k = none := by
  induction l with
  | nil => simp
  | cons a rest ih =>
    simp only [List.lookup] at h
    by_cases hk : (k == a.1) = true
    · simp [hk] at h
    · simp only [List.filter]
      cases hp : p a
      · exact ih (by simpa [hk] using h)
      · simp only [List.lookup, hk]
        exact ih (by simpa [hk] using h)

theorem lookup_append_of_none {β : Type} (l₁ l₂ : List (String × β)) (k : String)
    (h : l₁.lookup k = none) : (l₁ ++ l₂).lookup k = l₂.lookup k := by
  induction l₁ with
  | nil => simp
  | cons a rest ih =>
    simp only [List.lookup] at h
    by_cases hk : (k == a.1) = true
    · simp [hk] at h
    · simpa [List.lookup, hk] using ih (by simpa [hk] using h)

theorem lookup_isSome_of_mem {β : Type} (l : List (String × β)) (k : String) (v : β)
    (h : (k, v) ∈ l) : (l.lookup k).isSome = true := by
  induction l with
  | nil => simp at h
  | cons a rest ih =>
    rcases List.mem_cons.mp h with h1 | h1
    · simp [List.lookup, ← h1]
    · by_cases hk : (k == a.1) = true
      · simp [List.lookup, hk]
      · simpa [List.lookup, hk] using ih h1

/-! ## Order facts about the key comparison and the entry sort -/

theorem strLtLex_asymm (a b : List Char) (h : strLtLex a b = true) : strLtLex b a = false := by
  induction a generalizing b with
  | nil =>
    cases b with
    | nil => simp [strLtLex] at h
    | cons y ys => simp [strLtLex]
  | cons x xs ih =>
    cases b with
    | nil => simp [strLtLex] at h
    | cons y ys =>
      simp only [strLtLex] at h ⊢
      by_cases h1 : x.toNat < y.toNat
      · simp [h1, show ¬ y.toNat < x.toNat by omega]
      · by_cases h2 : y.toNat < x.toNat
        · simp [h1, h2] at h
        · simp only [h1, h2, if_false] at h
          simp [h1, h2, ih ys h]

theorem strLtLex_connex (a b : List Char) (h1 : strLtLex a b = false)
    (h2 : strLtLex b a = false) : a = b := by
  induction a generalizing b with
  | nil =>
    cases b with
    | nil => rfl
    | cons y ys => simp [strLtLex] at h1
  | cons x xs ih =>
    cases b with
    | nil => simp [strLtLex] at h2
    | cons y ys =>
      simp only [strLtLex] at h1 h2
      by_cases hx : x.toNat < y.toNat
      · simp [hx] at h1
      · by_cases hy : y.toNat < x.toNat
        · simp [hx, hy] at h2
        · have hchar : x = y := by
            have e1 := Char.ofNat_toNat x
            have e2 := Char.ofNat_toNat y
            rw [← e1, ← e2, show x.toNat = y.toNat by omega]
          simp only [hx, hy, if_false] at h1 h2
          rw [hchar, ih ys (by simpa [hx, hy] using h1) (by simpa [hx, hy] using h2)]

theorem strLtLex_trans (a b c : List Char) (h1 : strLtLex a b = true)
    (h2 : strLtLex b c = true) : strLtLex a c = true := by
  induction a generalizing b c with
  | nil =>
    cases b with
    | nil => simp [strLtLex] at h1
    | cons y ys =>
      cases c with
      | nil => simp [strLtLex] at h2
      | cons z zs => simp [strLtLex]
  | cons x xs ih =>
    cases b with
    | nil => simp [strLtLex] at h1
    | cons y ys =>
      cases c with
      | nil => simp [strLtLex] at h2
      | cons z zs =>
        simp only [strLtLex] at h1 h2 ⊢
        by_cases hxy : x.toNat < y.toNat
        · by_cases hyz : y.toNat < z.toNat
          · simp [show x.toNat < z.toNat by omega]
          · by_cases hzy : z.toNat < y.toNat
            · simp [hyz, hzy] at h2
            · have : y.toNat = z.toNat := by omega
              simp [show x.toNat < z.toNat by omega]
        · by_cases hyx : y.toNat < x.toNat
          · simp [hxy, hyx] at h1
          · have hxy' : x.toNat = y.toNat := by omega
            by_cases hyz : y.toNat < z.toNat
            · simp [show x.toNat < z.toNat by omega]
            · by_cases hzy : z.toNat < y.toNat
              · simp [hyz, hzy] at h2
              · have hxz : ¬ x.toNat < z.toNat := by omega
                have hzx : ¬ z.toNat < x.toNat := by omega
                simp only [hxy, hyx, if_false] at h1
                simp only [hyz, hzy, if_false] at h2
                simp [hxz, hzx, ih ys zs h1 h2]

theorem strLeB_trans {a b c : String} (h1 : strLeB a b = true) (h2 : strLeB b c = true) :
    strLeB a c = true := by
  simp only [strLeB, Bool.not_eq_true'] at h1 h2 ⊢
  by_cases hca : strLtLex c.data a.data = true
  · by_cases hab : strLtLex a.data b.data = true
    · exact absurd (strLtLex_trans _ _ _ hca hab) (by simp [h2])
    · have heq : a.data = b.data :=
        strLtLex_connex _ _ (Bool.not_eq_true _ ▸ hab : _) h1
      rw [heq] at hca
      exact absurd hca (by simp [h2])
  · exact Bool.not_eq_true _ ▸ hca

theorem strLeB_total {a b : String} (h : strLeB a b = false) : strLeB b a = true := by
  simp only [strLeB, Bool.not_eq_false'] at h
  simp only [strLeB, Bool.not_eq_true']
  exact strLtLex_asymm _ _ h

theorem strLeB_antisymm {a b : String} (h1 : strLeB a b = true) (h2 : strLeB b a = true) :
    a = b := by
  simp only [strLeB, Bool.not_eq_true'] at h1 h2
  cases a with
  | mk da =>
    cases b with
    | mk db =>
      have := strLtLex_connex da db h2 h1
      simp [this]

def keyLe {α : Type} (p q : String × α) : Prop := strLeB p.1 q.1 = true

theorem insertPair_perm {α : Type} (p : String × α) (l : List (String × α)) :
    (insertPair p l).Perm (p :: l) := by
  induction l with
  | nil => simp [insertPair]
  | cons q rest ih =>
    simp only [insertPair]
    by_cases h : strLeB p.1 q.1 = true
    · simp [h]
    · simp only [h, if_false]
      exact ((ih.cons q).trans (List.Perm.swap p q rest))

theorem sortByKey_perm {α : Type} (l : List (String × α)) : (sortByKey l).Perm l := by
  induction l with
  | nil => simp [sortByKey]
  | cons p rest ih =>
    exact (insertPair_perm p (sortByKey rest)).trans (ih.cons p)

theorem insertPair_pairwise {α : Type} (p : String × α) (l : List (String × α))
    (h : l.Pairwise keyLe) : (insertPair p l).Pairwise keyLe := by
  induction l with
  | nil => simp [insertPair, List.Pairwise]
  | cons q rest ih =>
    simp only [insertPair]
    by_cases hle : strLeB p.1 q.1 = true
    · simp only [hle, if_true]
      refine List.Pairwise.cons ?_ h
      intro r hr
      rcases List.mem_cons.mp hr with h1 | h1
      · subst h1; exact hle
      · rcases h with _ | ⟨hq, _⟩
        exact strLeB_trans hle (hq r h1)
    · simp only [hle, if_false]
      rcases h with _ | ⟨hq, hrest⟩
      refine List.Pairwise.cons ?_ (ih hrest)
      intro r hr
      have := (insertPair_perm p rest).mem_iff.mp hr
      rcases List.mem_cons.mp this with h1 | h1
      · subst h1; exact strLeB_total (Bool.not_eq_true _ ▸ hle : _)
      · exact hq r h1

theorem sortByKey_pairwise {α : Type} (l : List (String × α)) :
    (sortByKey l).Pairwise keyLe := by
  induction l with
  | nil => simp [sortByKey]
  | cons p rest ih => exact insertPair_pairwise p (sortByKey rest) ih

theorem sorted_nodupkeys_eq {α : Type} (l₁ l₂ : List (String × α)) (hp : l₁.Perm l₂)
    (hs₁ : l₁.Pairwise keyLe) (hs₂ : l₂.Pairwise keyLe)
    (hn : (l₁.map Prod.fst).Nodup) : l₁ = l₂ := by
  induction l₁ generalizing l₂ with
  | nil => exact (List.Perm.nil_eq hp).symm ▸ rfl
  | cons a t₁ ih =>
    cases l₂ with
    | nil => exact absurd hp.symm (by simp)
    | cons b t₂ =>
      have hab : a = b := by
        have ha2 : a ∈ b :: t₂ := hp.mem_iff.mp (by simp)
        rcases List.mem_cons.mp ha2 with h1 | h1
        · exact h1
        · have hb1 : b ∈ a :: t₁ := hp.symm.mem_iff.mp (by simp)
          rcases List.mem_cons.mp hb1 with h2 | h2
          · exact h2.symm
          · rcases hs₂ with _ | ⟨hble, _⟩
            rcases hs₁ with _ | ⟨hale, _⟩
            have hkey : a.1 = b.1 := strLeB_antisymm (hale b h2) (hble a h1)
            rcases hn with _ | ⟨hna, _⟩
            exact absurd (hkey ▸ List.mem_map_of_mem Prod.fst h2)
              (fun hmem => hna a.1 hmem rfl)
      subst hab
      have hperm := hp.cons_inv
      rcases hs₁ with _ | ⟨_, hs₁'⟩
      rcases hs₂ with _ | ⟨_, hs₂'⟩
      rcases hn with _ | ⟨_, hn'⟩
      rw [ih t₂ hperm hs₁' hs₂' hn']

theorem sortByKey_perm_eq {α : Type} (l₁ l₂ : List (String × α)) (hp : l₁.Perm l₂)
    (hn : (l₁.map Prod.fst).Nodup) : sortByKey l₁ = sortByKey l₂ := by
  refine sorted_nodupkeys_eq _ _ ?_ (sortByKey_pairwise l₁) (sortByKey_pairwise l₂) ?_
  · exact (sortByKey_perm l₁).trans (hp.trans (sortByKey_perm l₂).symm)
  · exact (((sortByKey_perm l₁).map Prod.fst).nodup_iff).mpr hn

/-! ## Canonical JSON serialization is key-order independent -/

theorem jsonDumpsEntries_eq_map (ensureAscii : Bool) (l : List (String × Json)) :
    jsonDumpsEntries ensureAscii l =
      l.map (fun p => (p.1, quoteJson ensureAscii p.1 ++ ":" ++ jsonDumps ensureAscii p.2)) := by
  induction l with
  | nil => rfl
  | cons p rest ih =>
    cases p with
    | mk k v => simp [jsonDumpsEntries, ih]

theorem jsonDumps_obj_perm (ensureAscii : Bool) (m₁ m₂ : List (String × Json))
    (hp : m₁.Perm m₂) (hn : (m₁.map Prod.fst).Nodup) :
    jsonDumps ensureAscii (.obj m₁) = jsonDumps ensureAscii (.obj m₂) := by
  have hperm : (jsonDumpsEntries ensureAscii m₁).Perm (jsonDumpsEntries ensureAscii m₂) := by
    rw [jsonDumpsEntries_eq_map, jsonDumpsEntries_eq_map]
    exact hp.map _
  have hkeys : (jsonDumpsEntries ensureAscii m₁).map Prod.fst = m₁.map Prod.fst := by
    rw [jsonDumpsEntries_eq_map, List.map_map]
    rfl
  have hsort : sortByKey (jsonDumpsEntries ensureAscii m₁) =
      sortByKey (jsonDumpsEntries ensureAscii m₂) :=
    sortByKey_perm_eq _ _ hperm (hkeys ▸ hn)
  simp only [jsonDumps]
  rw [hsort]

/-! ## Composite risk scoring lemmas -/

theorem clamp01_eq_self {x : ℚ} (h0 : 0 ≤ x) (h1 : x ≤ 1) : clamp01 x = x := by
  simp [clamp01, min_eq_right h1, max_eq_right h0]

theorem composite_foldl_eq (components : String → Option ℚ) (weights : List (String × ℚ))
    (acc : ℚ × ℚ) (hb : ∀ name x, components name = some x → 0 ≤ x ∧ x ≤ 1) :
    weights.foldl
      (fun (acc : ℚ × ℚ) (p : String × ℚ) =>
        match components p.1 with
        | none => acc
        | some value => (acc.1 + clamp01 value * p.2, acc.2 + p.2))
      acc =
    (acc.1 + specWeightedSum components weights, acc.2 + specWeightSum components weights) := by
  induction weights generalizing acc with
  | nil => simp [specWeightedSum, specWeightSum]
  | cons p rest ih =>
    simp only [List.foldl, specWeightedSum, specWeightSum, List.map, List.sum_cons]
    cases h : components p.1 with
    | none =>
      rw [ih acc]
      simp [specWeightedSum, specWeightSum]
    | some v =>
      have hv := hb p.1 v h
      rw [ih _]
      simp only [specWeightedSum, specWeightSum, clamp01_eq_self hv.1 hv.2, Prod.mk.injEq]
      constructor <;> ring

theorem specWeightSum_nonneg (components : String → Option ℚ) (weights : List (String × ℚ))
    (hw : ∀ p ∈ weights, 0 ≤ p.2) : 0 ≤ specWeightSum components weights := by
  induction weights with
  | nil => simp [specWeightSum]
  | cons p rest ih =>
    have h1 : 0 ≤ p.2 := hw p (by simp)
    have h2 := ih (fun q hq => hw q (by simp [hq]))
    simp only [specWeightSum, List.map, List.sum_cons] at h2 ⊢
    cases h : components p.1 with
    | none => simpa using h2
    | some v => exact add_nonneg h1 h2

theorem specWeightSum_pos (components : String → Option ℚ) (weights : List (String × ℚ))
    (hw : ∀ p ∈ weights, 0 < p.2) (hex : ∃ p ∈ weights, (components p.1).isSome) :
    0 < specWeightSum components weights := by
  induction weights with
  | nil => simp at hex
  | cons p rest ih =>
    simp only [specWeightSum, List.map, List.sum_cons]
    have hnn : 0 ≤ (rest.map (fun p =>
        match components p.1 with
        | none => (0 : ℚ)
        | some _ => p.2)).sum := by
      have := specWeightSum_nonneg components rest (fun q hq => le_of_lt (hw q (by simp [hq])))
      simpa [specWeightSum] using this
    rcases hex with ⟨q, hq, hqs⟩
    rcases List.mem_cons.mp hq with h1 | h1
    · subst h1
      cases h : components q.1 with
      | none => simp [h] at hqs
      | some v =>
        have hq2 := hw q (by simp)
        exact add_pos_of_pos_of_nonneg hq2 hnn
    · cases h : components p.1 with
      | none =>
        have hrest := ih (fun r hr => hw r (by simp [hr])) ⟨q, h1, hqs⟩
        simp only [specWeightSum] at hrest
        simpa using hrest
      | some v =>
        have hp2 := hw p (by simp)
        exact add_pos_of_pos_of_nonneg hp2 hnn

theorem specWeightedSum_nonneg (components : String → Option ℚ) (weights : List (String × ℚ))
    (hw : ∀ p ∈ weights, 0 ≤ p.2) (hb : ∀ name x, components name = some x → 0 ≤ x ∧ x ≤ 1) :
    0 ≤ specWeightedSum components weights := by
  induction weights with
  | nil => simp [specWeightedSum]
  | cons p rest ih =>
    simp only [specWeightedSum, List.map, List.sum_cons]
    have h2 := ih (fun q hq => hw q (by simp [hq]))
    simp only [specWeightedSum] at h2
    cases h : components p.1 with
    | none => simpa using h2
    | some v =>
      have hv := hb p.1 v h
      have hp2 : 0 ≤ p.2 := hw p (by simp)
      have hvp : 0 ≤ v * p.2 := mul_nonneg hv.1 hp2
      exact add_nonneg hvp h2

theorem specWeightedSum_le (components : String → Option ℚ) (weights : List (String × ℚ))
    (hw : ∀ p ∈ weights, 0 ≤ p.2) (hb : ∀ name x, components name = some x → 0 ≤ x ∧ x ≤ 1) :
    specWeightedSum components weights ≤ specWeightSum components weights := by
  induction weights with
  | nil => simp [specWeightedSum, specWeightSum]
  | cons p rest ih =>
    simp only [specWeightedSum, specWeightSum, List.map, List.sum_cons]
    have h2 := ih (fun q hq => hw q (by simp [hq]))
    simp only [specWeightedSum, specWeightSum] at h2
    cases h : components p.1 with
    | none => simpa using h2
    | some v =>
      have hv := hb p.1 v h
      have hp2 : 0 ≤ p.2 := hw p (by simp)
      have hvp : v * p.2 ≤ p.2 := mul_le_of_le_one_left hp2 hv.2
      exact add_le_add hvp h2

/-- C4: with the default weights (grounding 0.30, self-consistency 0.25,
verifier 0.25, numeric 0.10, tool-mismatch 0.10, drift 0.10), whenever at
least one of the six risk components is present and every present component
lies in [0,1], `composite_risk_score` returns exactly the weighted mean over
the present components with the weights renormalized over the present
subset; the score lies in [0,1] and the level is "low" below 0.20,
"medium" below 0.35 and "high" otherwise. -/
theorem c4_composite_risk_score (components : String → Option ℚ)
    (hb : ∀ name x, components name = some x → 0 ≤ x ∧ x ≤ 1)
    (hpresent : (components "grounding_risk").isSome = true ∨
      (components "self_consistency_risk").isSome = true ∨
      (components "verifier_risk").isSome = true ∨
      (components "numeric_instability_risk").isSome = true ∨
      (components "tool_mismatch_risk").isSome = true ∨
      (components "drift_risk").isSome = true) :
    composite_risk_score components DEFAULT_WEIGHTS =
      (specWeightedSum components DEFAULT_WEIGHTS / specWeightSum components DEFAULT_WEIGHTS,
        if specWeightedSum components DEFAULT_WEIGHTS /
            specWeightSum components DEFAULT_WEIGHTS < 20 / 100 then "low"
        else if specWeightedSum components DEFAULT_WEIGHTS /
            specWeightSum components DEFAULT_WEIGHTS < 35 / 100 then "medium"
        else "high") ∧
    0 ≤ specWeightedSum components DEFAULT_WEIGHTS / specWeightSum components DEFAULT_WEIGHTS ∧
    specWeightedSum components DEFAULT_WEIGHTS / specWeightSum components DEFAULT_WEIGHTS ≤ 1 := by
  have hwpos : ∀ p ∈ DEFAULT_WEIGHTS, (0 : ℚ) < p.2 := by
    intro p hp
    fin_cases hp <;> norm_num
  have hwnn : ∀ p ∈ DEFAULT_WEIGHTS, (0 : ℚ) ≤ p.2 := fun p hp => le_of_lt (hwpos p hp)
  have hex : ∃ p ∈ DEFAULT_WEIGHTS, (components p.1).isSome := by
    rcases hpresent with h | h | h | h | h | h
    · exact ⟨("grounding_risk", 30 / 100), by simp [DEFAULT_WEIGHTS], h⟩
    · exact ⟨("self_consistency_risk", 25 / 100), by simp [DEFAULT_WEIGHTS], h⟩
    · exact ⟨("verifier_risk", 25 / 100), by simp [DEFAULT_WEIGHTS], h⟩
    · exact ⟨("numeric_instability_risk", 10 / 100), by simp [DEFAULT_WEIGHTS], h⟩
    · exact ⟨("tool_mismatch_risk", 10 / 100), by simp [DEFAULT_WEIGHTS], h⟩
    · exact ⟨("drift_risk", 10 / 100), by simp [DEFAULT_WEIGHTS], h⟩
  have hpos := specWeightSum_pos components DEFAULT_WEIGHTS hwpos hex
  have hnum0 := specWeightedSum_nonneg components DEFAULT_WEIGHTS hwnn hb
  have hnumle := specWeightedSum_le components DEFAULT_WEIGHTS hwnn hb
  have hq0 : 0 ≤ specWeightedSum components DEFAULT_WEIGHTS /
      specWeightSum components DEFAULT_WEIGHTS := div_nonneg hnum0 (le_of_lt hpos)
  have hq1 : specWeightedSum components DEFAULT_WEIGHTS /
      specWeightSum components DEFAULT_WEIGHTS ≤ 1 :=
    (div_le_one hpos).mpr hnumle
  refine ⟨?_, hq0, hq1⟩
  unfold composite_risk_score
  rw [composite_foldl_eq components DEFAULT_WEIGHTS (0, 0) hb]
  simp only [zero_add]
  rw [if_neg (not_le.mpr hpos)]
  rw [clamp01_eq_self hq0 hq1]
  simp [risk_level]

/-- C4 witness: the theorem applied to a concrete assignment with only the
grounding component present, with value 1/2. -/
theorem c4_composite_risk_score_witness :
    composite_risk_score (fun n => if n = "grounding_risk" then some (1 / 2 : ℚ) else none)
      DEFAULT_WEIGHTS =
      (specWeightedSum (fun n => if n = "grounding_risk" then some (1 / 2 : ℚ) else none)
          DEFAULT_WEIGHTS /
        specWeightSum (fun n => if n = "grounding_risk" then some (1 / 2 : ℚ) else none)
          DEFAULT_WEIGHTS,
        if specWeightedSum (fun n => if n = "grounding_risk" then some (1 / 2 : ℚ) else none)
              DEFAULT_WEIGHTS /
            specWeightSum (fun n => if n = "grounding_risk" then some (1 / 2 : ℚ) else none)
              DEFAULT_WEIGHTS < 20 / 100 then "low"
        else if specWeightedSum (fun n => if n = "grounding_risk" then some (1 / 2 : ℚ) else none)
              DEFAULT_WEIGHTS /
            specWeightSum (fun n => if n = "grounding_risk" then some (1 / 2 : ℚ) else none)
              DEFAULT_WEIGHTS < 35 / 100 then "medium"
        else "high") := by
  exact (c4_composite_risk_score _
    (by
      intro name x h
      by_cases hn : name = "grounding_risk"
      · simp [hn] at h
        constructor <;> (rw [← h]; norm_num)
      · simp [hn] at h)
    (Or.inl (by simp))).1

/-! ## C3: the policy matrix -/

/-- C3: with the default thresholds, `PolicyEngine.evaluate` implements the
matrix — HIGH: BLOCK at score ≥ 0.35, REVIEW at 0.20 ≤ score < 0.35,
otherwise ALLOW, always requiring a token; MEDIUM: REVIEW at score ≥ 0.50,
otherwise ALLOW, without a token; LOW: always ALLOW without a token. -/
theorem c3_policy_matrix (profile : ToolProfile) (s : ℚ) :
    (profile.criticality = .HIGH →
      (PolicyEngine.evaluate {} profile s).require_token = true ∧
      (35 / 100 ≤ s → (PolicyEngine.evaluate {} profile s).decision = .BLOCK) ∧
      (20 / 100 ≤ s → s < 35 / 100 → (PolicyEngine.evaluate {} profile s).decision = .REVIEW) ∧
      (s < 20 / 100 → (PolicyEngine.evaluate {} profile s).decision = .ALLOW)) ∧
    (profile.criticality = .MEDIUM →
      (PolicyEngine.evaluate {} profile s).require_token = false ∧
      (50 / 100 ≤ s → (PolicyEngine.evaluate {} profile s).decision = .REVIEW) ∧
      (s < 50 / 100 → (PolicyEngine.evaluate {} profile s).decision = .ALLOW)) ∧
    (profile.criticality = .LOW →
      (PolicyEngine.evaluate {} profile s).require_token = false ∧
      (PolicyEngine.evaluate {} profile s).decision = .ALLOW) := by
  unfold PolicyEngine.evaluate
  refine ⟨fun hc => ?_, fun hc => ?_, fun hc => ?_⟩ <;> rw [hc]
  · refine ⟨?_, ?_, ?_, ?_⟩
    · rw [if_pos rfl]
      split_ifs <;> rfl
    · intro h
      rw [if_pos rfl, if_pos (by simpa using h)]
    · intro h1 h2
      rw [if_pos rfl, if_neg (by simpa using not_le.mpr h2), if_pos (by simpa using h1)]
    · intro h
      rw [if_pos rfl, if_neg (by simpa using not_le.mpr (by linarith : s < 35 / 100)),
        if_neg (by simpa using not_le.mpr h)]
  · refine ⟨?_, ?_, ?_⟩
    · rw [if_neg (by simp), if_pos rfl]
      split_ifs <;> rfl
    · intro h
      rw [if_neg (by simp), if_pos rfl, if_pos (by simpa using h)]
    · intro h
      rw [if_neg (by simp), if_pos rfl, if_neg (by simpa using not_le.mpr h)]
  · rw [if_neg (by simp), if_neg (by simp)]
    exact ⟨rfl, rfl⟩

/-- C3 witness: concrete rows of the matrix — a HIGH tool at score 0.40 is
blocked with a token required, a HIGH tool at score 0.25 needs review, a
MEDIUM tool at score 0.10 is allowed without a token, and a LOW tool at
score 0.99 is allowed. -/
theorem c3_policy_matrix_witness :
    (PolicyEngine.evaluate {} { name := "t", criticality := .HIGH } (40 / 100)).decision =
        .BLOCK ∧
    (PolicyEngine.evaluate {} { name := "t", criticality := .HIGH } (40 / 100)).require_token =
        true ∧
    (PolicyEngine.evaluate {} { name := "t", criticality := .HIGH } (25 / 100)).decision =
        .REVIEW ∧
    (PolicyEngine.evaluate {} { name := "t", criticality := .MEDIUM } (10 / 100)).decision =
        .ALLOW ∧
    (PolicyEngine.evaluate {} { name := "t", criticality := .MEDIUM } (10 / 100)).require_token =
        false ∧
    (PolicyEngine.evaluate {} { name := "t", criticality := .LOW } (99 / 100)).decision =
        .ALLOW := by
  refine ⟨((c3_policy_matrix { name := "t", criticality := .HIGH } (40 / 100)).1 rfl).2.1
      (by norm_num),
    ((c3_policy_matrix { name := "t", criticality := .HIGH } (40 / 100)).1 rfl).1,
    ((c3_policy_matrix { name := "t", criticality := .HIGH } (25 / 100)).1 rfl).2.2.1
      (by norm_num) (by norm_num),
    ((c3_policy_matrix { name := "t", criticality := .MEDIUM } (10 / 100)).2.1 rfl).2.2
      (by norm_num),
    ((c3_policy_matrix { name := "t", criticality := .MEDIUM } (10 / 100)).2.1 rfl).1,
    ((c3_policy_matrix { name := "t", criticality := .LOW } (99 / 100)).2.2 rfl).2⟩

/-! ## C6: the two argument-hash implementations -/

/-- C6 (amended): both argument-hash implementations are invariant under
permutations of the top-level keys, but they hash different canonical
strings — the execution-path `args_hash` applies text normalization to an
ASCII-escaping dump, while the proposal/commit `tool_args_hash` hashes the
non-ASCII-preserving canonical JSON with no text normalization. -/
theorem c6_hash_key_permutation (m₁ m₂ : List (String × Json)) (hp : m₁.Perm m₂)
    (hn : (m₁.map Prod.fst).Nodup) :
    args_hash (.obj m₁) = args_hash (.obj m₂) ∧
    tool_args_hash (.obj m₁) = tool_args_hash (.obj m₂) ∧
    (∀ v : Json, args_hash v = sha256_hex (normalize_text (jsonDumps true v))) ∧
    (∀ v : Json, tool_args_hash v = sha256_hex (canonical_json v)) := by
  refine ⟨?_, ?_, fun v => rfl, fun v => rfl⟩
  · unfold args_hash
    rw [jsonDumps_obj_perm true m₁ m₂ hp hn]
  · unfold tool_args_hash canonical_json
    rw [jsonDumps_obj_perm false m₁ m₂ hp hn]

/-- C6 witness: permuting the two keys of a concrete argument dict leaves
both hashes unchanged. -/
theorem c6_hash_key_permutation_witness :
    args_hash (.obj [("b", .int 1), ("a", .str "x")]) =
      args_hash (.obj [("a", .str "x"), ("b", .int 1)]) ∧
    tool_args_hash (.obj [("b", .int 1), ("a", .str "x")]) =
      tool_args_hash (.obj [("a", .str "x"), ("b", .int 1)]) := by
  have h := c6_hash_key_permutation [("b", .int 1), ("a", .str "x")]
    [("a", .str "x"), ("b", .int 1)] (List.Perm.swap _ _ _) (by decide)
  exact ⟨h.1, h.2.1⟩

/-- C6 counterexample: the claimed formula
`sha256_hex(normalize(canonical_json(args)))` disagrees with the
proposal/commit `tool_args_hash` on the input `{"a": "X"}`, because
`tool_args_hash` does not normalize — the uppercase `X` is hashed as-is,
while the claimed formula lowercases it first. -/
theorem c6_hash_counterexample :
    tool_args_hash (.obj [("a", .str "X")]) ≠
      sha256_hex (normalize_text (canonical_json (.obj [("a", .str "X")]))) := by
  decide

/-! ## C9: undecodable tokens -/

/-- C9 (amended): when the two halves of the first-dot split fail base64url
decoding, the execution-token verifier rejects with `token_decode_failed`,
but the commit-token verifier maps the same failure to `bad_signature`
(its single `except` arm). -/
theorem c9_decode_failure (token a b : String) (hsplit : splitFirstDot token = some (a, b))
    (hdec : b64urlDecode a = none ∨ b64urlDecode b = none) (secret : List Nat)
    (replay_protection : Bool) (seen : List (String × Int)) (tool_name tool_args_hash : String)
    (now_ms : Int) (secret2 : List Nat) (now2 : Int) :
    TokenVerifier.verify secret replay_protection seen token tool_name tool_args_hash now_ms =
      (⟨false, "token_decode_failed", none⟩, seen) ∧
    CommitTokenManager.verify secret2 token now2 = ⟨false, "bad_signature", none⟩ := by
  constructor
  · unfold TokenVerifier.verify
    rw [hsplit]
    rcases hdec with h | h
    · cases h2 : b64urlDecode b <;> simp [h, h2]
    · cases h2 : b64urlDecode a <;> simp [h, h2]
  · unfold CommitTokenManager.verify
    rw [hsplit]
    rcases hdec with h | h
    · cases h2 : b64urlDecode b <;> simp [h, h2]
    · cases h2 : b64urlDecode a <;> simp [h, h2]

/-- C9 witness: the theorem applied to the token `"a.a"`, whose halves
`"a"` are invalid base64. -/
theorem c9_decode_failure_witness :
    TokenVerifier.verify (utf8Encode "k2") true [] "a.a" "t" "h" 5 =
      (⟨false, "token_decode_failed", none⟩, []) ∧
    CommitTokenManager.verify (utf8Encode "k") "a.a" 0 = ⟨false, "bad_signature", none⟩ :=
  c9_decode_failure "a.a" "a" "a" rfl (Or.inl rfl) (utf8Encode "k2") true [] "t" "h" 5
    (utf8Encode "k") 0

/-- C9 counterexample: on the undecodable token `"a.a"` the commit-token
verifier returns reason `bad_signature`, not the claimed
`token_decode_failed`. -/
theorem c9_counterexample :
    splitFirstDot "a.a" = some ("a", "a") ∧
    b64urlDecode "a" = none ∧
    (CommitTokenManager.verify (utf8Encode "unit-secret") "a.a" 7).reason = "bad_signature" ∧
    "bad_signature" ≠ "token_decode_failed" := by
  refine ⟨rfl, rfl, rfl, by decide⟩

/-! ## C10: early commit-verification failures do not consume the nonce -/

theorem verify_commit_state_eq (secret : List Nat) (st : Storage)
    (pid tok tname : String) (args : Json) (now : Int) :
    ∀ res st', CommitVerifier.verify_commit secret st pid tok tname args now = (res, st') →
      res.ok = false → res.reason ≠ "nonce_replay" → st' = st := by
  intro res st' hrun hfail hnr
  unfold CommitVerifier.verify_commit at hrun
  simp only [] at hrun
  split at hrun
  · injection hrun with h1 h2
    exact h2.symm
  · split at hrun
    · injection hrun with h1 h2
      exact h2.symm
    · split at hrun
      · injection hrun with h1 h2
        exact h2.symm
      · split at hrun
        · injection hrun with h1 h2
          exact h2.symm
        · split at hrun
          · injection hrun with h1 h2
            exact h2.symm
          · split at hrun
            · injection hrun with h1 h2
              exact h2.symm
            · split at hrun
              · injection hrun with h1 h2
                exact h2.symm
              · split at hrun
                · injection hrun with h1 h2
                  subst h1
                  exact absurd rfl hnr
                · injection hrun with h1 h2
                  subst h1
                  simp at hfail

/-- C10: whenever `verify_commit` fails for any reason other than
`nonce_replay` (unknown proposal, bad signature, expiry, or an args/tool
binding mismatch), the storage — in particular the nonce table — is left
unchanged, so any later `verify_commit` call behaves exactly as it would
have on the original storage (a later correct commit can still succeed). -/
theorem c10_early_failure_keeps_nonces (secret : List Nat) (st : Storage)
    (pid tok tname : String) (args : Json) (now : Int) (res : CommitVerification)
    (st' : Storage)
    (hrun : CommitVerifier.verify_commit secret st pid tok tname args now = (res, st'))
    (hfail : res.ok = false) (hnr : res.reason ≠ "nonce_replay") :
    st' = st ∧
    ∀ pid2 tok2 tname2 args2 now2,
      CommitVerifier.verify_commit secret st' pid2 tok2 tname2 args2 now2 =
        CommitVerifier.verify_commit secret st pid2 tok2 tname2 args2 now2 := by
  have hst := verify_commit_state_eq secret st pid tok tname args now res st' hrun hfail hnr
  exact ⟨hst, fun _ _ _ _ _ => by rw [hst]⟩

/-! ## Commit-token lemmas -/

theorem jsonStrMismatch_eq_false {p : Json} {k e : String} :
    jsonStrMismatch p k e = false ↔ jsonGet p k = some (.str e) := by
  unfold jsonStrMismatch
  cases hj : jsonGet p k with
  | none => simp
  | some v => cases v <;> simp

/-- Validity of a commit token is stable across time while it is unexpired:
only step 4 (the expiry check) of `CommitTokenManager.verify` reads the
clock. -/
theorem commit_verify_stable (secret : List Nat) (tok : String) (t1 t2 : Int) (p : Json)
    (h : CommitTokenManager.verify secret tok t1 = ⟨true, "ok", some p⟩)
    (h2 : ¬ pyIntOf (jsonGetD p "expires_at" (.int 0)) ≤ t2) :
    CommitTokenManager.verify secret tok t2 = ⟨true, "ok", some p⟩ := by
  unfold CommitTokenManager.verify at h ⊢
  cases hs : splitFirstDot tok with
  | none => rw [hs] at h; simp at h
  | some ab =>
    obtain ⟨a, b⟩ := ab
    rw [hs] at h
    simp only [] at h ⊢
    cases hda : b64urlDecode a with
    | none => rw [hda] at h; simp at h
    | some praw =>
      rw [hda] at h
      cases hdb : b64urlDecode b with
      | none => rw [hdb] at h; simp at h
      | some sig =>
        rw [hdb] at h
        simp only [] at h ⊢
        by_cases hsig : sig = hmacSha256 secret praw
        · rw [if_neg (by simpa using hsig)] at h ⊢
          cases hp : jsonLoadsBytes praw with
          | none => rw [hp] at h; simp at h
          | some payload =>
            rw [hp] at h
            simp only [] at h ⊢
            by_cases he : pyIntOf (jsonGetD payload "expires_at" (.int 0)) ≤ t1
            · rw [if_pos he] at h; simp at h
            · rw [if_neg he] at h
              have hpp : payload = p := by
                simpa using h
              subst hpp
              rw [if_neg h2]
        · rw [if_pos (by simpa using hsig)] at h
          simp at h

/-- C5: in `verify_commit`, once the proposal is loaded with decision
"allow", the token is valid and its `proposal_id` matches, a mismatch of
either the payload `tool_name` against the supplied tool name or the
payload `tool_args_hash` against the canonical hash of the supplied args
fails with reason `args_hash_mismatch` (the tool-name mismatch included);
and a successful verification entails that the payload binds exactly the
supplied tool name and the canonical hash of the supplied args. -/
theorem c5_args_binding (secret : List Nat) (st : Storage) (pid tok tname : String)
    (args : Json) (now : Int) (prop : ProposalRow) (p : Json)
    (hprop : st.get_proposal pid = some prop) (hallow : prop.decision = "allow")
    (htok : CommitTokenManager.verify secret tok now = ⟨true, "ok", some p⟩)
    (hpid : jsonGet p "proposal_id" = some (.str pid)) :
    ((jsonGet p "tool_name" ≠ some (.str tname) ∨
        jsonGet p "tool_args_hash" ≠ some (.str (tool_args_hash args))) →
      (CommitVerifier.verify_commit secret st pid tok tname args now).1 =
        ⟨false, "args_hash_mismatch"⟩) ∧
    ((CommitVerifier.verify_commit secret st pid tok tname args now).1.ok = true →
      jsonGet p "tool_name" = some (.str tname) ∧
      jsonGet p "tool_args_hash" = some (.str (tool_args_hash args))) := by
  unfold CommitVerifier.verify_commit
  rw [hprop]
  simp only []
  rw [if_neg (by simp [hallow]), htok]
  simp only []
  rw [if_neg (by simp)]
  rw [if_neg (by simp [jsonStrMismatch_eq_false.mpr hpid])]
  by_cases m1 : jsonStrMismatch p "tool_name" tname = true
  · rw [if_pos m1]
    constructor
    · intro _; rfl
    · intro hok; simp at hok
  · rw [if_neg m1]
    have hname : jsonGet p "tool_name" = some (.str tname) :=
      jsonStrMismatch_eq_false.mp (Bool.not_eq_true _ ▸ m1 : _)
    by_cases m2 : jsonStrMismatch p "tool_args_hash" (tool_args_hash args) = true
    · rw [if_pos m2]
      constructor
      · intro _; rfl
      · intro hok; simp at hok
    · rw [if_neg m2]
      have hhash : jsonGet p "tool_args_hash" = some (.str (tool_args_hash args)) :=
        jsonStrMismatch_eq_false.mp (Bool.not_eq_true _ ▸ m2 : _)
      constructor
      · intro hd
        rcases hd with hd | hd
        · exact absurd hname hd
        · exact absurd hhash hd
      · intro _
        exact ⟨hname, hhash⟩

theorem exists_mem_of_lookup_isSome {β : Type} (l : List (String × β)) (k : String)
    (h : (l.lookup k).isSome = true) : ∃ v, (k, v) ∈ l := by
  induction l with
  | nil => simp at h
  | cons a rest ih =>
    by_cases hk : (k == a.1) = true
    · exact ⟨a.2, by simp [show k = a.1 from by simpa using hk]⟩
    · rcases ih (by simpa [List.lookup, hk] using h) with ⟨v, hv⟩
      exact ⟨v, by simp [hv]⟩

theorem not_mem_of_lookup_none {β : Type} (l : List (String × β)) (k : String)
    (h : l.lookup k = none) : ∀ v, (k, v) ∉ l := by
  intro v hv
  exact absurd (lookup_isSome_of_mem l k v hv) (by simp [h])

/-- The check-and-insert `nonce_seen` reports a replay exactly when the
nonce is already recorded with an unexpired expiry. -/
theorem nonce_seen_iff (s : Storage) (n tid : String) (e now : Int) :
    (s.nonce_seen n tid e now).1 = true ↔
      ∃ tid' e', (n, tid', e') ∈ s.nonces ∧ now < e' := by
  unfold Storage.nonce_seen
  by_cases hl : (((s.nonces.filter (fun p => ¬ p.2.2 ≤ now)).lookup n).isSome) = true
  · rw [if_pos hl]
    simp only [true_iff]
    rcases exists_mem_of_lookup_isSome _ _ hl with ⟨v, hv⟩
    rcases List.mem_filter.mp hv with ⟨hmem, hcond⟩
    exact ⟨v.1, v.2, hmem, by simpa using hcond⟩
  · rw [if_neg hl]
    constructor
    · intro hfalse
      exact absurd hfalse (by simp)
    · rintro ⟨tid', e', hmem, he'⟩
      exact absurd (lookup_isSome_of_mem _ n (tid', e')
        (List.mem_filter.mpr ⟨hmem, by simpa using not_le.mpr he'⟩)) hl

theorem verify_commit_proposals_eq (secret : List Nat) (st : Storage)
    (pid tok tname : String) (args : Json) (now : Int) :
    (CommitVerifier.verify_commit secret st pid tok tname args now).2.proposals =
      st.proposals := by
  unfold CommitVerifier.verify_commit
  simp only []
  split
  · rfl
  · split
    · rfl
    · split
      · rfl
      · split
        · rfl
        · split
          · rfl
          · split
            · rfl
            · split
              · rfl
              · simp only [Storage.nonce_seen]
                split <;> split <;> rfl

theorem verify_commit_nonce_mem (secret : List Nat) (st : Storage)
    (pid tok tname : String) (args : Json) (now : Int) (n tid : String) (e : Int)
    (hmem : (n, tid, e) ∈ st.nonces) (ht : now < e) :
    (n, tid, e) ∈ (CommitVerifier.verify_commit secret st pid tok tname args now).2.nonces := by
  have hkeep : (n, tid, e) ∈ st.nonces.filter (fun p => ¬ p.2.2 ≤ now) :=
    List.mem_filter.mpr ⟨hmem, by simpa using not_le.mpr ht⟩
  unfold CommitVerifier.verify_commit
  simp only []
  split
  · exact hmem
  · split
    · exact hmem
    · split
      · exact hmem
      · split
        · exact hmem
        · split
          · exact hmem
          · split
            · exact hmem
            · split
              · exact hmem
              · simp only [Storage.nonce_seen]
                split <;> split
                · exact hkeep
                · exact hkeep
                · exact List.mem_append_left _ hkeep
                · exact List.mem_append_left _ hkeep

theorem runCommitCalls_cons (secret : List Nat) (c : CommitCall) (rest : List CommitCall)
    (st : Storage) :
    runCommitCalls secret (c :: rest) st =
      runCommitCalls secret rest
        (CommitVerifier.verify_commit secret st c.proposal_id c.commit_token c.tool_name
          c.tool_args c.now).2 := rfl

theorem runCommitCalls_preserves (secret : List Nat) (calls : List CommitCall) (st : Storage)
    (n tid : String) (e : Int) (hmem : (n, tid, e) ∈ st.nonces)
    (hts : ∀ c ∈ calls, c.now < e) :
    (n, tid, e) ∈ (runCommitCalls secret calls st).nonces ∧
      (runCommitCalls secret calls st).proposals = st.proposals := by
  induction calls generalizing st with
  | nil => exact ⟨hmem, rfl⟩
  | cons c rest ih =>
    have hstep1 := verify_commit_nonce_mem secret st c.proposal_id c.commit_token c.tool_name
      c.tool_args c.now n tid e hmem (hts c (by simp))
    have hstep2 := verify_commit_proposals_eq secret st c.proposal_id c.commit_token c.tool_name
      c.tool_args c.now
    have hrest := ih _ hstep1 (fun d hd => hts d (by simp [hd]))
    rw [runCommitCalls_cons]
    exact ⟨hrest.1, hrest.2.trans hstep2⟩

/-- C10 witness: a failing commit verification against an empty store
(reason `unknown_proposal`) leaves the storage unchanged. -/
theorem c10_early_failure_keeps_nonces_witness :
    ((CommitVerifier.verify_commit (utf8Encode "k") {} "p1" "a.a" "t" (.obj []) 3).2 = {} ∧
      ∀ pid2 tok2 tname2 args2 now2,
        CommitVerifier.verify_commit (utf8Encode "k")
            (CommitVerifier.verify_commit (utf8Encode "k") {} "p1" "a.a" "t" (.obj []) 3).2
            pid2 tok2 tname2 args2 now2 =
          CommitVerifier.verify_commit (utf8Encode "k") {} pid2 tok2 tname2 args2 now2) :=
  c10_early_failure_keeps_nonces (utf8Encode "k") {} "p1" "a.a" "t" (.obj []) 3
    ⟨false, "unknown_proposal"⟩ {} rfl rfl (by decide)

theorem nonce_seen_fresh (s : Storage) (n tid : String) (e now : Int)
    (hfresh : ∀ tid' e', (n, tid', e') ∈ s.nonces → e' ≤ now) :
    s.nonce_seen n tid e now =
      (false, { s with nonces :=
        s.nonces.filter (fun q => ¬ q.2.2 ≤ now) ++ [(n, tid, e)] }) := by
  have hl : ((s.nonces.filter (fun q => ¬ q.2.2 ≤ now)).lookup n) = none := by
    cases hx : (s.nonces.filter (fun q => ¬ q.2.2 ≤ now)).lookup n with
    | none => rfl
    | some v =>
      rcases exists_mem_of_lookup_isSome
          (s.nonces.filter (fun q => ¬ q.2.2 ≤ now)) n
          (by simp only [hx, Option.isSome_some]) with ⟨w, hw⟩
      rcases List.mem_filter.mp hw with ⟨hmem, hcond⟩
      exact absurd (hfresh w.1 w.2 hmem) (by simpa using hcond)
  unfold Storage.nonce_seen
  simp only []
  rw [if_neg (by rw [hl]; simp)]

/-- C1: having loaded an "allow" proposal and a cleanly-verifying commit
token whose payload binds the right proposal id, tool name and args hash,
if the payload nonce is not currently recorded unexpired then
`verify_commit` succeeds with "ok" and atomically records the nonce
(purging expired entries); from then on, across any interleaved sequence
of further `verify_commit` calls made before the nonce expires, a
repeated verification of the same token with the correct inputs fails
with reason `nonce_replay`; and `nonce_seen` is a check-and-insert whose
boolean is `true` exactly when the nonce is already present with an
unexpired expiry. -/
theorem c1_nonce_replay (secret : List Nat) (st : Storage) (pid tok tname : String)
    (args : Json) (t1 : Int) (prop : ProposalRow) (p : Json)
    (nStr tidStr : String) (expv : Int)
    (hprop : st.get_proposal pid = some prop) (hallow : prop.decision = "allow")
    (htok : CommitTokenManager.verify secret tok t1 = ⟨true, "ok", some p⟩)
    (hpid : jsonGet p "proposal_id" = some (.str pid))
    (hname : jsonGet p "tool_name" = some (.str tname))
    (hhash : jsonGet p "tool_args_hash" = some (.str (tool_args_hash args)))
    (hn : pyStrOf (jsonGetD p "nonce" .null) = nStr)
    (htid : pyStrOf (jsonGetD p "token_id" .null) = tidStr)
    (hexp : pyIntOf (jsonGetD p "expires_at" (.int 0)) = expv)
    (hfresh : ∀ tid' e', (nStr, tid', e') ∈ st.nonces → e' ≤ t1) :
    CommitVerifier.verify_commit secret st pid tok tname args t1 =
      (⟨true, "ok"⟩,
        { st with nonces :=
            st.nonces.filter (fun q => ¬ q.2.2 ≤ t1) ++ [(nStr, tidStr, expv)] }) ∧
    (∀ calls t2, (∀ c ∈ calls, c.now < expv) → t2 < expv →
      (CommitVerifier.verify_commit secret
          (runCommitCalls secret calls
            { st with nonces :=
                st.nonces.filter (fun q => ¬ q.2.2 ≤ t1) ++ [(nStr, tidStr, expv)] })
          pid tok tname args t2).1 = ⟨false, "nonce_replay"⟩) ∧
    (∀ s n tid e now,
      (Storage.nonce_seen s n tid e now).1 = true ↔
        ∃ tid' e', (n, tid', e') ∈ s.nonces ∧ now < e') := by
  refine ⟨?_, ?_, fun s n tid e now => nonce_seen_iff s n tid e now⟩
  · unfold CommitVerifier.verify_commit
    rw [hprop]
    simp only []
    rw [if_neg (by simp [hallow]), htok]
    simp only []
    rw [if_neg (by simp)]
    rw [if_neg (by simp [jsonStrMismatch_eq_false.mpr hpid])]
    rw [if_neg (by simp [jsonStrMismatch_eq_false.mpr hname])]
    rw [if_neg (by simp [jsonStrMismatch_eq_false.mpr hhash])]
    rw [hn, htid, hexp]
    rw [nonce_seen_fresh st nStr tidStr expv t1 hfresh]
    simp
  · intro calls t2 hcalls ht2
    have hmem1 : (nStr, tidStr, expv) ∈ (Storage.nonces { st with nonces := st.nonces.filter (fun q => ¬ q.2.2 ≤ t1) ++ [(nStr, tidStr, expv)] }) :=
      List.mem_append_right _ (by simp)
    have hpres := runCommitCalls_preserves secret calls _ nStr tidStr expv hmem1 hcalls
    have hprop2 : (runCommitCalls secret calls { st with nonces := st.nonces.filter (fun q => ¬ q.2.2 ≤ t1) ++ [(nStr, tidStr, expv)] }).get_proposal pid = some prop := by
      unfold Storage.get_proposal
      rw [hpres.2]
      exact hprop
    have htok2 : CommitTokenManager.verify secret tok t2 = ⟨true, "ok", some p⟩ :=
      commit_verify_stable secret tok t1 t2 p htok (by rw [hexp]; exact not_le.mpr ht2)
    have hseen : ((runCommitCalls secret calls { st with nonces := st.nonces.filter (fun q => ¬ q.2.2 ≤ t1) ++ [(nStr, tidStr, expv)] }).nonce_seen nStr tidStr expv t2).1 = true :=
      (nonce_seen_iff _ _ _ _ _).mpr ⟨tidStr, expv, hpres.1, ht2⟩
    unfold CommitVerifier.verify_commit
    rw [hprop2]
    simp only []
    rw [if_neg (by simp [hallow]), htok2]
    simp only []
    rw [if_neg (by simp)]
    rw [if_neg (by simp [jsonStrMismatch_eq_false.mpr hpid])]
    rw [if_neg (by simp [jsonStrMismatch_eq_false.mpr hname])]
    rw [if_neg (by simp [jsonStrMismatch_eq_false.mpr hhash])]
    rw [hn, htid, hexp]
    rw [if_pos hseen]

/-- C1 witness: against a concrete "allow" proposal, a concrete commit
token verifies ok once, recording its nonce; an immediately repeated
verification of the same token one second later fails with
`nonce_replay`. -/
theorem c1_nonce_replay_witness :
    (CommitVerifier.verify_commit (utf8Encode "k")
        { proposals := [("p1", ⟨"p1", "f", "{}", "h", 0, "allow", 0⟩)] } "p1"
        "eyJjb21wb3NpdGVfc2NvcmUiOjAuMjUsImV4cGlyZXNfYXQiOjE3MDAwMDAwNjAsImlzc3VlZF9hdCI6MTcwMDAwMDAwMCwibm9uY2UiOiJuIiwicHJvcG9zYWxfaWQiOiJwMSIsInRva2VuX2lkIjoidCIsInRvb2xfYXJnc19oYXNoIjoiNWVkMDk2OTUxYzVlYWIwNzA5MDY1MDMzMzQ0Yjk4NGUzM2FiYzhhMTA0OTZiYjE4Nzg2ZTVmZjI5ODE1NjAyZiIsInRvb2xfbmFtZSI6ImYifQ==.s8PK56MorpNrGf5aAfzZH3pvlmIYcJ8rVMv84_R9g0Q=" "f"
        (.obj [("amount", .int 100), ("to", .str "acct_123")]) 1700000000 =
      (⟨true, "ok"⟩,
        { proposals := [("p1", ⟨"p1", "f", "{}", "h", 0, "allow", 0⟩)],
          nonces := [("n", "t", 1700000060)] })) ∧
    (CommitVerifier.verify_commit (utf8Encode "k")
        { proposals := [("p1", ⟨"p1", "f", "{}", "h", 0, "allow", 0⟩)],
          nonces := [("n", "t", 1700000060)] } "p1"
        "eyJjb21wb3NpdGVfc2NvcmUiOjAuMjUsImV4cGlyZXNfYXQiOjE3MDAwMDAwNjAsImlzc3VlZF9hdCI6MTcwMDAwMDAwMCwibm9uY2UiOiJuIiwicHJvcG9zYWxfaWQiOiJwMSIsInRva2VuX2lkIjoidCIsInRvb2xfYXJnc19oYXNoIjoiNWVkMDk2OTUxYzVlYWIwNzA5MDY1MDMzMzQ0Yjk4NGUzM2FiYzhhMTA0OTZiYjE4Nzg2ZTVmZjI5ODE1NjAyZiIsInRvb2xfbmFtZSI6ImYifQ==.s8PK56MorpNrGf5aAfzZH3pvlmIYcJ8rVMv84_R9g0Q=" "f"
        (.obj [("amount", .int 100), ("to", .str "acct_123")]) 1700000001).1 =
      ⟨false, "nonce_replay"⟩ := by
  have h := c1_nonce_replay (utf8Encode "k")
    { proposals := [("p1", ⟨"p1", "f", "{}", "h", 0, "allow", 0⟩)] } "p1"
    "eyJjb21wb3NpdGVfc2NvcmUiOjAuMjUsImV4cGlyZXNfYXQiOjE3MDAwMDAwNjAsImlzc3VlZF9hdCI6MTcwMDAwMDAwMCwibm9uY2UiOiJuIiwicHJvcG9zYWxfaWQiOiJwMSIsInRva2VuX2lkIjoidCIsInRvb2xfYXJnc19oYXNoIjoiNWVkMDk2OTUxYzVlYWIwNzA5MDY1MDMzMzQ0Yjk4NGUzM2FiYzhhMTA0OTZiYjE4Nzg2ZTVmZjI5ODE1NjAyZiIsInRvb2xfbmFtZSI6ImYifQ==.s8PK56MorpNrGf5aAfzZH3pvlmIYcJ8rVMv84_R9g0Q=" "f"
    (.obj [("amount", .int 100), ("to", .str "acct_123")]) 1700000000
    ⟨"p1", "f", "{}", "h", 0, "allow", 0⟩
    (.obj [("composite_score", .float (mkRat 1 4)), ("expires_at", .int 1700000060),
      ("issued_at", .int 1700000000), ("nonce", .str "n"), ("proposal_id", .str "p1"),
      ("token_id", .str "t"),
      ("tool_args_hash", .str "5ed096951c5eab0709065033344b984e33abc8a10496bb18786e5ff29815602f"),
      ("tool_name", .str "f")])
    "n" "t" 1700000060
    rfl rfl rfl rfl rfl rfl rfl rfl rfl (by simp)
  exact ⟨h.1, h.2.1 [] 1700000001 (by simp) (by decide)⟩

/-- C5 witness: committing with args whose canonical hash differs from the
one bound in the concrete token's payload fails with
`args_hash_mismatch`. -/
theorem c5_args_binding_witness :
    (CommitVerifier.verify_commit (utf8Encode "k")
        { proposals := [("p1", ⟨"p1", "f", "{}", "h", 0, "allow", 0⟩)] } "p1"
        "eyJjb21wb3NpdGVfc2NvcmUiOjAuMjUsImV4cGlyZXNfYXQiOjE3MDAwMDAwNjAsImlzc3VlZF9hdCI6MTcwMDAwMDAwMCwibm9uY2UiOiJuIiwicHJvcG9zYWxfaWQiOiJwMSIsInRva2VuX2lkIjoidCIsInRvb2xfYXJnc19oYXNoIjoiNWVkMDk2OTUxYzVlYWIwNzA5MDY1MDMzMzQ0Yjk4NGUzM2FiYzhhMTA0OTZiYjE4Nzg2ZTVmZjI5ODE1NjAyZiIsInRvb2xfbmFtZSI6ImYifQ==.s8PK56MorpNrGf5aAfzZH3pvlmIYcJ8rVMv84_R9g0Q=" "f"
        (.obj [("amount", .int 101), ("to", .str "acct_123")]) 1700000000).1 =
      ⟨false, "args_hash_mismatch"⟩ := by
  have h := c5_args_binding (utf8Encode "k")
    { proposals := [("p1", ⟨"p1", "f", "{}", "h", 0, "allow", 0⟩)] } "p1"
    "eyJjb21wb3NpdGVfc2NvcmUiOjAuMjUsImV4cGlyZXNfYXQiOjE3MDAwMDAwNjAsImlzc3VlZF9hdCI6MTcwMDAwMDAwMCwibm9uY2UiOiJuIiwicHJvcG9zYWxfaWQiOiJwMSIsInRva2VuX2lkIjoidCIsInRvb2xfYXJnc19oYXNoIjoiNWVkMDk2OTUxYzVlYWIwNzA5MDY1MDMzMzQ0Yjk4NGUzM2FiYzhhMTA0OTZiYjE4Nzg2ZTVmZjI5ODE1NjAyZiIsInRvb2xfbmFtZSI6ImYifQ==.s8PK56MorpNrGf5aAfzZH3pvlmIYcJ8rVMv84_R9g0Q=" "f"
    (.obj [("amount", .int 101), ("to", .str "acct_123")]) 1700000000
    ⟨"p1", "f", "{}", "h", 0, "allow", 0⟩
    (.obj [("composite_score", .float (mkRat 1 4)), ("expires_at", .int 1700000060),
      ("issued_at", .int 1700000000), ("nonce", .str "n"), ("proposal_id", .str "p1"),
      ("token_id", .str "t"),
      ("tool_args_hash", .str "5ed096951c5eab0709065033344b984e33abc8a10496bb18786e5ff29815602f"),
      ("tool_name", .str "f")])
    rfl rfl rfl rfl
  refine h.1 (Or.inr (fun hcontra => ?_))
  have h1 : some (Json.str "5ed096951c5eab0709065033344b984e33abc8a10496bb18786e5ff29815602f") =
      some (Json.str (tool_args_hash
        (.obj [("amount", .int 101), ("to", .str "acct_123")]))) := hcontra
  rw [show tool_args_hash (.obj [("amount", .int 101), ("to", .str "acct_123")]) =
    "bb777fb93eda85c1ca573a2eaded150645d78184722c1a79f42225d4ccde63d9" from rfl] at h1
  simp at h1

/-! ## Base64 round-trip lemmas -/

theorem b64DecChar_encChar : ∀ n < 64, b64DecChar (b64EncChar n) = some n := by decide

theorem b64EncChar_ne_pad : ∀ n < 64, b64EncChar n ≠ '=' := by decide

theorem b64EncChar_ne_dot (n : Nat) : b64EncChar n ≠ '.' := by
  by_cases h : n < 64
  · exact (show ∀ m < 64, b64EncChar m ≠ '.' by decide) n h
  · show b64Alphabet.getD n 'A' ≠ '.'
    rw [List.getD_eq_default]
    · decide
    · have hlen : b64Alphabet.length = 64 := by decide
      omega

theorem dot_not_mem_b64EncodeChars (bs : List Nat) : '.' ∉ b64EncodeChars bs := by
  induction bs using b64EncodeChars.induct with
  | case1 => simp [b64EncodeChars]
  | case2 a =>
    intro hmem
    simp [b64EncodeChars] at hmem
    rcases hmem with h | h
    · exact b64EncChar_ne_dot _ h.symm
    · exact b64EncChar_ne_dot _ h.symm
  | case3 a b =>
    intro hmem
    simp [b64EncodeChars] at hmem
    rcases hmem with h | h | h
    · exact b64EncChar_ne_dot _ h.symm
    · exact b64EncChar_ne_dot _ h.symm
    · exact b64EncChar_ne_dot _ h.symm
  | case4 a b c rest ih =>
    intro hmem
    simp [b64EncodeChars] at hmem
    rcases hmem with h | h | h | h | h
    · exact b64EncChar_ne_dot _ h.symm
    · exact b64EncChar_ne_dot _ h.symm
    · exact b64EncChar_ne_dot _ h.symm
    · exact b64EncChar_ne_dot _ h.symm
    · exact ih h

theorem b64DecodeLoop_data (out quad : List Nat) (pads : Nat) (c : Char) (rest : List Char)
    (v : Nat) (hc : b64DecChar c = some v) (hne : c ≠ '=') (hq : quad.length ≠ 3) :
    b64DecodeLoop out quad pads (c :: rest) = b64DecodeLoop out (quad ++ [v]) 0 rest := by
  conv_lhs => unfold b64DecodeLoop
  rw [if_neg hne, hc]
  simp [hq]

theorem b64DecodeLoop_data_full (out quad : List Nat) (pads : Nat) (c : Char)
    (rest : List Char) (v : Nat) (hc : b64DecChar c = some v) (hne : c ≠ '=')
    (hq : quad.length = 3) :
    b64DecodeLoop out quad pads (c :: rest) =
      b64DecodeLoop (out ++ b64Emit (quad ++ [v])) [] 0 rest := by
  conv_lhs => unfold b64DecodeLoop
  rw [if_neg hne, hc]
  simp [hq]

theorem b64DecodeLoop_two_pads (out : List Nat) (q0 q1 : Nat) (rest : List Char) :
    b64DecodeLoop out [q0, q1] 0 ('=' :: '=' :: rest) = some (out ++ b64Emit [q0, q1]) := by
  simp [b64DecodeLoop]

theorem b64DecodeLoop_one_pad (out : List Nat) (q0 q1 q2 : Nat) (rest : List Char) :
    b64DecodeLoop out [q0, q1, q2] 0 ('=' :: rest) = some (out ++ b64Emit [q0, q1, q2]) := by
  simp [b64DecodeLoop]

theorem b64DecodeLoop_encodeChars (bs : List Nat) (h : ∀ x ∈ bs, x < 256) :
    ∀ out, b64DecodeLoop out [] 0 (b64EncodeChars bs) = some (out ++ bs) := by
  induction bs using b64EncodeChars.induct with
  | case1 => intro out; simp [b64EncodeChars, b64DecodeLoop]
  | case2 a =>
    intro out
    have ha : a < 256 := h a (by simp)
    rw [show b64EncodeChars [a] = [b64EncChar (a / 4), b64EncChar (a % 4 * 16), '=', '='] from
      rfl]
    rw [b64DecodeLoop_data out [] 0 _ _ _ (b64DecChar_encChar _ (by omega))
      (b64EncChar_ne_pad _ (by omega)) (by simp)]
    simp only [List.cons_append, List.nil_append]
    rw [b64DecodeLoop_data out [a / 4] 0 _ _ _ (b64DecChar_encChar _ (by omega))
      (b64EncChar_ne_pad _ (by omega)) (by simp)]
    simp only [List.cons_append, List.nil_append]
    rw [b64DecodeLoop_two_pads]
    have he : b64Emit [a / 4, a % 4 * 16] = [a] := by
      simp only [b64Emit]
      congr 1
      omega
    rw [he]
  | case3 a b =>
    intro out
    have ha : a < 256 := h a (by simp)
    have hb : b < 256 := h b (by simp)
    rw [show b64EncodeChars [a, b] =
      [b64EncChar (a / 4), b64EncChar (a % 4 * 16 + b / 16), b64EncChar (b % 16 * 4), '='] from
      rfl]
    rw [b64DecodeLoop_data out [] 0 _ _ _ (b64DecChar_encChar _ (by omega))
      (b64EncChar_ne_pad _ (by omega)) (by simp)]
    simp only [List.cons_append, List.nil_append]
    rw [b64DecodeLoop_data out [a / 4] 0 _ _ _ (b64DecChar_encChar _ (by omega))
      (b64EncChar_ne_pad _ (by omega)) (by simp)]
    simp only [List.cons_append, List.nil_append]
    rw [b64DecodeLoop_data out [a / 4, a % 4 * 16 + b / 16] 0 _ _ _
      (b64DecChar_encChar _ (by omega)) (b64EncChar_ne_pad _ (by omega)) (by simp)]
    simp only [List.cons_append, List.nil_append]
    rw [b64DecodeLoop_one_pad]
    have he : b64Emit [a / 4, a % 4 * 16 + b / 16, b % 16 * 4] = [a, b] := by
      simp only [b64Emit]
      congr 1
      · omega
      · congr 1
        omega
    rw [he]
  | case4 a b c rest ih =>
    intro out
    have ha : a < 256 := h a (by simp)
    have hb : b < 256 := h b (by simp)
    have hc : c < 256 := h c (by simp)
    have hrest : ∀ x ∈ rest, x < 256 := fun x hx => h x (by simp [hx])
    rw [show b64EncodeChars (a :: b :: c :: rest) =
      b64EncChar (a / 4) :: b64EncChar (a % 4 * 16 + b / 16) ::
        b64EncChar (b % 16 * 4 + c / 64) :: b64EncChar (c % 64) :: b64EncodeChars rest from
      rfl]
    rw [b64DecodeLoop_data out [] 0 _ _ _ (b64DecChar_encChar _ (by omega))
      (b64EncChar_ne_pad _ (by omega)) (by simp)]
    simp only [List.cons_append, List.nil_append]
    rw [b64DecodeLoop_data out [a / 4] 0 _ _ _ (b64DecChar_encChar _ (by omega))
      (b64EncChar_ne_pad _ (by omega)) (by simp)]
    simp only [List.cons_append, List.nil_append]
    rw [b64DecodeLoop_data out [a / 4, a % 4 * 16 + b / 16] 0 _ _ _
      (b64DecChar_encChar _ (by omega)) (b64EncChar_ne_pad _ (by omega)) (by simp)]
    simp only [List.cons_append, List.nil_append]
    rw [b64DecodeLoop_data_full out [a / 4, a % 4 * 16 + b / 16, b % 16 * 4 + c / 64] 0 _ _ _
      (b64DecChar_encChar _ (by omega)) (b64EncChar_ne_pad _ (by omega)) (by simp)]
    simp only [List.cons_append, List.nil_append]
    have he : b64Emit
        [a / 4, a % 4 * 16 + b / 16, b % 16 * 4 + c / 64, c % 64] = [a, b, c] := by
      simp only [b64Emit]
      congr 1
      · omega
      · congr 1
        · omega
        · congr 1
          omega
    rw [he, ih hrest (out ++ [a, b, c])]
    simp

theorem b64urlDecode_encode (bs : List Nat) (h : ∀ x ∈ bs, x < 256) :
    b64urlDecode (b64urlEncode bs) = some bs :=
  b64DecodeLoop_encodeChars bs h []

theorem splitFirstDotAux_through (A : List Char) :
    ∀ acc B, '.' ∉ A →
      splitFirstDotAux (A ++ '.' :: B) acc =
        some (String.mk (acc.reverse ++ A), String.mk B) := by
  induction A with
  | nil =>
    intro acc B _
    simp [splitFirstDotAux]
  | cons c A' ih =>
    intro acc B hnd
    have hc : c ≠ '.' := by
      intro hcontra
      exact hnd (by simp [hcontra])
    have hnd' : '.' ∉ A' := fun hm => hnd (by simp [hm])
    show splitFirstDotAux (c :: (A' ++ '.' :: B)) acc = _
    rw [show splitFirstDotAux (c :: (A' ++ '.' :: B)) acc =
        splitFirstDotAux (A' ++ '.' :: B) (c :: acc) from by
      unfold splitFirstDotAux
      split
      · simp_all
      · rename_i heq
        rw [List.cons.injEq] at heq
        exact absurd heq.1 hc
      · rename_i heq
        rw [List.cons.injEq] at heq
        rw [heq.1, heq.2]
        conv_lhs => unfold splitFirstDotAux]
    rw [ih (c :: acc) B hnd']
    simp

theorem splitFirstDot_token (A B : String) (h : '.' ∉ A.data) :
    splitFirstDot (A ++ "." ++ B) = some (A, B) := by
  unfold splitFirstDot
  have hd : (A ++ "." ++ B).data = A.data ++ '.' :: B.data := by
    simp [String.data_append]
  rw [hd, splitFirstDotAux_through A.data [] B.data h]
  simp

theorem dot_not_mem_b64urlEncode (bs : List Nat) : '.' ∉ (b64urlEncode bs).data :=
  dot_not_mem_b64EncodeChars bs

theorem utf8Char_lt (c : Char) : ∀ b ∈ utf8Char c, b < 256 := by
  have hv : c.toNat < 0x110000 := by
    rcases c.valid with h | h
    · exact Nat.lt_trans h (by norm_num)
    · exact h.2
  intro b hb
  simp only [utf8Char] at hb
  split at hb <;> [skip; split at hb] <;> [simp at hb; skip; skip] <;>
    [omega; skip; skip] <;> [simp at hb; split at hb] <;>
    [omega; simp at hb; simp at hb] <;> omega

theorem utf8Encode_lt (s : String) : ∀ b ∈ utf8Encode s, b < 256 := by
  intro b hb
  simp only [utf8Encode, List.mem_flatMap] at hb
  rcases hb with ⟨c, _, hc⟩
  exact utf8Char_lt c b hc

theorem wordsToBytes_lt (ws : List Nat) : ∀ b ∈ wordsToBytes ws, b < 256 := by
  intro b hb
  simp only [wordsToBytes, List.mem_flatMap] at hb
  rcases hb with ⟨w, _, hw⟩
  simp at hw
  rcases hw with h | h | h | h <;> omega

theorem sha256_lt (msg : List Nat) : ∀ b ∈ sha256 msg, b < 256 :=
  fun b hb => wordsToBytes_lt _ b hb

theorem hmacSha256_lt (key msg : List Nat) : ∀ b ∈ hmacSha256 key msg, b < 256 :=
  fun b hb => sha256_lt _ b hb

theorem seenInsert_of_none (l : List (String × Int)) (k : String) (v : Int)
    (h : l.lookup k = none) : seenInsert l k v = l ++ [(k, v)] := by
  unfold seenInsert
  rw [if_neg (by rw [h]; simp)]

/-- C2: an execution token produced by `TokenIssuer.issue` whose dumped
payload parses back to a JSON object binding the issued tool name, args
hash, expiry and token id, presented with the matching tool name and args
hash while unexpired and with replay protection on, verifies valid
("ok"), inserting its token id into the replay set; a second verification
of the same token against the resulting replay set, still within the TTL,
is rejected with reason `token_replay_detected`. -/
theorem c2_token_replay (secret : List Nat) (ttl_ms now_ms : Int)
    (tid nonce trace_id tname thash decision : String) (score : ℚ)
    (seen : List (String × Int)) (t1 t2 : Int) (p : Json)
    (hparse : jsonLoadsBytes (utf8Encode (jsonDumps true
      (TokenIssuer.issue secret ttl_ms now_ms tid nonce trace_id tname thash decision
        score).payload)) = some p)
    (hname : jsonGet p "tool_name" = some (.str tname))
    (hhash : jsonGet p "tool_args_hash" = some (.str thash))
    (hexpeq : pyIntOf (jsonGetD p "expires_at" (.int 0)) = now_ms + ttl_ms)
    (htideq : pyStrOf (jsonGetD p "token_id" (.str "")) = tid)
    (htid : tid ≠ "")
    (hfresh : (gcSeen seen t1).lookup tid = none)
    (hexp1 : t1 < now_ms + ttl_ms) (hexp2 : t2 < now_ms + ttl_ms) :
    TokenVerifier.verify secret true seen
        (TokenIssuer.issue secret ttl_ms now_ms tid nonce trace_id tname thash decision
          score).token tname thash t1 =
      (⟨true, "ok", some p⟩, gcSeen seen t1 ++ [(tid, now_ms + ttl_ms)]) ∧
    TokenVerifier.verify secret true (gcSeen seen t1 ++ [(tid, now_ms + ttl_ms)])
        (TokenIssuer.issue secret ttl_ms now_ms tid nonce trace_id tname thash decision
          score).token tname thash t2 =
      (⟨false, "token_replay_detected", some p⟩,
        gcSeen (gcSeen seen t1 ++ [(tid, now_ms + ttl_ms)]) t2) := by
  simp only [TokenIssuer.issue] at hparse ⊢
  have hsplit := splitFirstDot_token
    (b64urlEncode (utf8Encode (jsonDumps true (Json.obj
      [("token_id", .str tid), ("trace_id", .str trace_id), ("tool_name", .str tname),
       ("tool_args_hash", .str thash), ("decision", .str decision),
       ("composite_risk_score", .float score), ("issued_at", .int now_ms),
       ("expires_at", .int (now_ms + ttl_ms)), ("nonce", .str nonce)]))))
    (b64urlEncode (hmacSha256 secret (utf8Encode (jsonDumps true (Json.obj
      [("token_id", .str tid), ("trace_id", .str trace_id), ("tool_name", .str tname),
       ("tool_args_hash", .str thash), ("decision", .str decision),
       ("composite_risk_score", .float score), ("issued_at", .int now_ms),
       ("expires_at", .int (now_ms + ttl_ms)), ("nonce", .str nonce)])))))
    (dot_not_mem_b64urlEncode _)
  have hdecP := b64urlDecode_encode
    (utf8Encode (jsonDumps true (Json.obj
      [("token_id", .str tid), ("trace_id", .str trace_id), ("tool_name", .str tname),
       ("tool_args_hash", .str thash), ("decision", .str decision),
       ("composite_risk_score", .float score), ("issued_at", .int now_ms),
       ("expires_at", .int (now_ms + ttl_ms)), ("nonce", .str nonce)])))
    (utf8Encode_lt _)
  have hdecS := b64urlDecode_encode
    (hmacSha256 secret (utf8Encode (jsonDumps true (Json.obj
      [("token_id", .str tid), ("trace_id", .str trace_id), ("tool_name", .str tname),
       ("tool_args_hash", .str thash), ("decision", .str decision),
       ("composite_risk_score", .float score), ("issued_at", .int now_ms),
       ("expires_at", .int (now_ms + ttl_ms)), ("nonce", .str nonce)]))))
    (hmacSha256_lt _ _)
  have hm1 : jsonStrMismatch p "tool_name" tname = false := jsonStrMismatch_eq_false.mpr hname
  have hm2 : jsonStrMismatch p "tool_args_hash" thash = false :=
    jsonStrMismatch_eq_false.mpr hhash
  constructor
  · unfold TokenVerifier.verify
    rw [hsplit]
    simp only []
    rw [hdecP, hdecS]
    simp only []
    rw [if_neg (by simp)]
    rw [hparse]
    simp only []
    rw [hexpeq, htideq]
    rw [if_neg (not_le.mpr hexp1)]
    rw [if_neg (by simp [hm1])]
    rw [if_neg (by simp [hm2])]
    rw [if_pos ⟨trivial, htid⟩]
    rw [if_neg (by rw [hfresh]; simp)]
    rw [seenInsert_of_none _ _ _ hfresh]
  · have hmem2 : (tid, now_ms + ttl_ms) ∈
        gcSeen (gcSeen seen t1 ++ [(tid, now_ms + ttl_ms)]) t2 :=
      List.mem_filter.mpr
        ⟨List.mem_append_right _ (by simp), by simpa using not_le.mpr hexp2⟩
    have hlook : (((gcSeen (gcSeen seen t1 ++ [(tid, now_ms + ttl_ms)]) t2).lookup
        tid)).isSome = true :=
      lookup_isSome_of_mem _ tid (now_ms + ttl_ms) hmem2
    unfold TokenVerifier.verify
    rw [hsplit]
    simp only []
    rw [hdecP, hdecS]
    simp only []
    rw [if_neg (by simp)]
    rw [hparse]
    simp only []
    rw [hexpeq, htideq]
    rw [if_neg (not_le.mpr hexp2)]
    rw [if_neg (by simp [hm1])]
    rw [if_neg (by simp [hm2])]
    rw [if_pos ⟨trivial, htid⟩]
    rw [if_pos hlook]

/-- C2 witness: a concrete issued execution token verifies ok once at
`now+1 ms`, recording its token id, and is rejected as
`token_replay_detected` when verified again one millisecond later. -/
theorem c2_token_replay_witness :
    TokenVerifier.verify (utf8Encode "k") true []
        (TokenIssuer.issue (utf8Encode "k") 60000 1700000000000 "t" "n" "tr" "f" "h"
          "allow" (mkRat 1 4)).token "f" "h" 1700000000001 =
      (⟨true, "ok", some (.obj [("composite_risk_score", .float (mkRat 1 4)),
          ("decision", .str "allow"), ("expires_at", .int 1700000060000),
          ("issued_at", .int 1700000000000), ("nonce", .str "n"), ("token_id", .str "t"),
          ("tool_args_hash", .str "h"), ("tool_name", .str "f"),
          ("trace_id", .str "tr")])⟩,
        [("t", 1700000060000)]) ∧
    TokenVerifier.verify (utf8Encode "k") true [("t", 1700000060000)]
        (TokenIssuer.issue (utf8Encode "k") 60000 1700000000000 "t" "n" "tr" "f" "h"
          "allow" (mkRat 1 4)).token "f" "h" 1700000000002 =
      (⟨false, "token_replay_detected", some (.obj [("composite_risk_score",
          .float (mkRat 1 4)), ("decision", .str "allow"),
          ("expires_at", .int 1700000060000), ("issued_at", .int 1700000000000),
          ("nonce", .str "n"), ("token_id", .str "t"), ("tool_args_hash", .str "h"),
          ("tool_name", .str "f"), ("trace_id", .str "tr")])⟩,
        [("t", 1700000060000)]) := by
  have h := c2_token_replay (utf8Encode "k") 60000 1700000000000 "t" "n" "tr" "f" "h"
    "allow" (mkRat 1 4) [] 1700000000001 1700000000002
    (.obj [("composite_risk_score", .float (mkRat 1 4)), ("decision", .str "allow"),
      ("expires_at", .int 1700000060000), ("issued_at", .int 1700000000000),
      ("nonce", .str "n"), ("token_id", .str "t"), ("tool_args_hash", .str "h"),
      ("tool_name", .str "f"), ("trace_id", .str "tr")])
    rfl rfl rfl rfl rfl (by decide) rfl (by decide) (by decide)
  exact ⟨h.1, h.2⟩

theorem interceptBranch_review {α : Type} (I : Interceptor α) (seen : List (String × Int))
    (env : CallEnv) (tn : String) (ta : Json) (f : Json → α) (policy : PolicyResult)
    (rv : RiskVector) (ctx : TraceContext) (hd : policy.decision = .REVIEW) :
    interceptBranch I seen env tn ta f policy rv ctx =
      (Sum.inr (review_response_template tn policy.reason),
       { ctx with fallback_used := true, fallback_type := some "human_review",
                  fallback_reason := some policy.reason },
       false, seen) := by
  unfold interceptBranch
  rw [if_pos hd]

theorem interceptBranch_block {α : Type} (I : Interceptor α) (seen : List (String × Int))
    (env : CallEnv) (tn : String) (ta : Json) (f : Json → α) (policy : PolicyResult)
    (rv : RiskVector) (ctx : TraceContext) (hd : policy.decision = .BLOCK) :
    interceptBranch I seen env tn ta f policy rv ctx =
      ((FallbackRouter.route I.fallback_router tn ta policy.reason).1,
       { ctx with fallback_used := true, fallback_reason := some policy.reason,
                  fallback_type :=
                    some (FallbackRouter.route I.fallback_router tn ta policy.reason).2 },
       false, seen) := by
  unfold interceptBranch
  rw [if_neg (by rw [hd]; decide), if_pos hd]

/-- C7: when the policy decision is REVIEW or BLOCK, `intercept_tool_call`
never invokes the wrapped tool function: the REVIEW outcome is the review
template `{status: "review_required", ...}` with fallback type
`human_review`, produced without consulting the fallback router (the whole
outcome is unchanged under any router and any tool function); the BLOCK
outcome is a registered safe handler's result labelled `safe_tool`, or
else the blocked template labelled `template`. -/
theorem c7_review_block_no_invoke (α : Type) (I : Interceptor α)
    (seen : List (String × Int)) (env : CallEnv) (tool_name : String) (tool_args : Json)
    (tool_fn : Json → α) (model_answer : String) (trs rc pti : Option String)
    (prompt : String) (sa pph rid sid : Option String) (pol : PolicyResult)
    (hpol : PolicyEngine.evaluate I.policy_config (I.tool_registry.get tool_name)
      (compute_risk_vector prompt model_answer rc sa trs pph).composite_risk_score = pol) :
    (pol.decision = .REVIEW →
      (intercept_tool_call I seen env tool_name tool_args tool_fn model_answer trs rc pti
        prompt sa pph rid sid).tool_invoked = false ∧
      (∀ (g : Json → α) (r : FallbackRouter α),
        intercept_tool_call { I with fallback_router := r } seen env tool_name tool_args g
          model_answer trs rc pti prompt sa pph rid sid =
        intercept_tool_call I seen env tool_name tool_args tool_fn model_answer trs rc pti
          prompt sa pph rid sid) ∧
      (I.exporter = none →
        (intercept_tool_call I seen env tool_name tool_args tool_fn model_answer trs rc pti
          prompt sa pph rid sid).result =
            .ok (Sum.inr (review_response_template tool_name pol.reason)) ∧
        (intercept_tool_call I seen env tool_name tool_args tool_fn model_answer trs rc pti
          prompt sa pph rid sid).ctx.fallback_type = some "human_review")) ∧
    (pol.decision = .BLOCK →
      (intercept_tool_call I seen env tool_name tool_args tool_fn model_answer trs rc pti
        prompt sa pph rid sid).tool_invoked = false ∧
      (∀ (g : Json → α),
        intercept_tool_call I seen env tool_name tool_args g model_answer trs rc pti
          prompt sa pph rid sid =
        intercept_tool_call I seen env tool_name tool_args tool_fn model_answer trs rc pti
          prompt sa pph rid sid) ∧
      (I.exporter = none →
        ((∃ fn, List.lookup tool_name I.fallback_router = some fn ∧
          (intercept_tool_call I seen env tool_name tool_args tool_fn model_answer trs rc
            pti prompt sa pph rid sid).result = .ok (Sum.inl (fn tool_args)) ∧
          (intercept_tool_call I seen env tool_name tool_args tool_fn model_answer trs rc
            pti prompt sa pph rid sid).ctx.fallback_type = some "safe_tool") ∨
        (List.lookup tool_name I.fallback_router = none ∧
          (intercept_tool_call I seen env tool_name tool_args tool_fn model_answer trs rc
            pti prompt sa pph rid sid).result =
              .ok (Sum.inr (block_response_template tool_name pol.reason)) ∧
          (intercept_tool_call I seen env tool_name tool_args tool_fn model_answer trs rc
            pti prompt sa pph rid sid).ctx.fallback_type = some "template")))) := by
  obtain ⟨Iserv, Iex, Ireg, Icfg, Iis, Iit, Ivs, Ivr, Ifr, Iv2⟩ := I
  constructor
  · intro hrev
    refine ⟨?_, ?_, ?_⟩
    · unfold intercept_tool_call
      generalize args_hash tool_args = ah
      generalize hrv : compute_risk_vector prompt model_answer rc sa trs pph = rv0
      simp only []
      have hpol' : PolicyEngine.evaluate Icfg (ToolRegistry.get Ireg tool_name)
          rv0.composite_risk_score = pol := by rw [← hrv]; exact hpol
      rw [hpol']
      rw [interceptBranch_review _ _ _ _ _ tool_fn pol rv0 _ hrev]
      cases Iex with
      | none => rfl
      | some ex =>
        simp only []
        split <;> rfl
    · intro g r
      unfold intercept_tool_call
      generalize args_hash tool_args = ah
      generalize hrv : compute_risk_vector prompt model_answer rc sa trs pph = rv0
      simp only []
      have hpol' : PolicyEngine.evaluate Icfg (ToolRegistry.get Ireg tool_name)
          rv0.composite_risk_score = pol := by rw [← hrv]; exact hpol
      rw [hpol']
      rw [interceptBranch_review _ _ _ _ _ g pol rv0 _ hrev]
      rw [interceptBranch_review _ _ _ _ _ tool_fn pol rv0 _ hrev]
    · intro hex
      simp only [] at hex
      subst hex
      unfold intercept_tool_call
      generalize args_hash tool_args = ah
      generalize hrv : compute_risk_vector prompt model_answer rc sa trs pph = rv0
      simp only []
      have hpol' : PolicyEngine.evaluate Icfg (ToolRegistry.get Ireg tool_name)
          rv0.composite_risk_score = pol := by rw [← hrv]; exact hpol
      rw [hpol']
      rw [interceptBranch_review _ _ _ _ _ tool_fn pol rv0 _ hrev]
      exact ⟨rfl, rfl⟩
  · intro hblk
    refine ⟨?_, ?_, ?_⟩
    · unfold intercept_tool_call
      generalize args_hash tool_args = ah
      generalize hrv : compute_risk_vector prompt model_answer rc sa trs pph = rv0
      simp only []
      have hpol' : PolicyEngine.evaluate Icfg (ToolRegistry.get Ireg tool_name)
          rv0.composite_risk_score = pol := by rw [← hrv]; exact hpol
      rw [hpol']
      rw [interceptBranch_block _ _ _ _ _ tool_fn pol rv0 _ hblk]
      cases Iex with
      | none => rfl
      | some ex =>
        simp only []
        split <;> rfl
    · intro g
      unfold intercept_tool_call
      generalize args_hash tool_args = ah
      generalize hrv : compute_risk_vector prompt model_answer rc sa trs pph = rv0
      simp only []
      have hpol' : PolicyEngine.evaluate Icfg (ToolRegistry.get Ireg tool_name)
          rv0.composite_risk_score = pol := by rw [← hrv]; exact hpol
      rw [hpol']
      rw [interceptBranch_block _ _ _ _ _ g pol rv0 _ hblk]
      rw [interceptBranch_block _ _ _ _ _ tool_fn pol rv0 _ hblk]
    · intro hex
      simp only [] at hex
      subst hex
      cases hlk : List.lookup tool_name Ifr with
      | some fn =>
        have hroute : FallbackRouter.route Ifr tool_name tool_args pol.reason =
            (Sum.inl (fn tool_args), "safe_tool") := by
          unfold FallbackRouter.route
          rw [hlk]
        refine Or.inl ⟨fn, rfl, ?_, ?_⟩ <;>
          · unfold intercept_tool_call
            generalize args_hash tool_args = ah
            generalize hrv : compute_risk_vector prompt model_answer rc sa trs pph = rv0
            simp only []
            have hpol' : PolicyEngine.evaluate Icfg (ToolRegistry.get Ireg tool_name)
                rv0.composite_risk_score = pol := by rw [← hrv]; exact hpol
            rw [hpol']
            rw [interceptBranch_block _ _ _ _ _ tool_fn pol rv0 _ hblk]
            rw [hroute]
      | none =>
        have hroute : FallbackRouter.route Ifr tool_name tool_args pol.reason =
            (Sum.inr (block_response_template tool_name pol.reason), "template") := by
          unfold FallbackRouter.route
          rw [hlk]
        refine Or.inr ⟨rfl, ?_, ?_⟩ <;>
          · unfold intercept_tool_call
            generalize args_hash tool_args = ah
            generalize hrv : compute_risk_vector prompt model_answer rc sa trs pph = rv0
            simp only []
            have hpol' : PolicyEngine.evaluate Icfg (ToolRegistry.get Ireg tool_name)
                rv0.composite_risk_score = pol := by rw [← hrv]; exact hpol
            rw [hpol']
            rw [interceptBranch_block _ _ _ _ _ tool_fn pol rv0 _ hblk]
            rw [hroute]

/-- C7 witness: with a HIGH-criticality tool and an empty fallback router,
a concrete run whose composite score falls in the review band returns the
review template without invoking the tool, and a concrete run in the block
band returns the blocked template without invoking the tool. -/
theorem c7_review_block_no_invoke_witness :
    (intercept_tool_call
        ({ service := "svc",
           tool_registry := [("pay", ⟨"pay", .HIGH, "limited", false, false, none⟩)] } :
          Interceptor Nat) [] ⟨"tr", "sp", "rq", "tk", "nn", 0, 1⟩ "pay" (.obj [])
        (fun _ => 7) "maybe sent" (some "failed") none none "" none none none
        none).tool_invoked = false ∧
    (intercept_tool_call
        ({ service := "svc",
           tool_registry := [("pay", ⟨"pay", .HIGH, "limited", false, false, none⟩)] } :
          Interceptor Nat) [] ⟨"tr", "sp", "rq", "tk", "nn", 0, 1⟩ "pay" (.obj [])
        (fun _ => 7) "maybe sent" (some "failed") none none "" none none none
        none).result =
      .ok (Sum.inr (review_response_template "pay" "high_criticality_review_threshold")) ∧
    (intercept_tool_call
        ({ service := "svc",
           tool_registry := [("pay", ⟨"pay", .HIGH, "limited", false, false, none⟩)] } :
          Interceptor Nat) [] ⟨"tr", "sp", "rq", "tk", "nn", 0, 1⟩ "pay" (.obj [])
        (fun _ => 7) "maybe sent" (some "failed") none none "" none (some "x") none
        none).tool_invoked = false ∧
    (intercept_tool_call
        ({ service := "svc",
           tool_registry := [("pay", ⟨"pay", .HIGH, "limited", false, false, none⟩)] } :
          Interceptor Nat) [] ⟨"tr", "sp", "rq", "tk", "nn", 0, 1⟩ "pay" (.obj [])
        (fun _ => 7) "maybe sent" (some "failed") none none "" none (some "x") none
        none).result =
      .ok (Sum.inr (block_response_template "pay" "high_criticality_block_threshold")) := by
  have h1 := c7_review_block_no_invoke Nat
    { service := "svc",
      tool_registry := [("pay", ⟨"pay", .HIGH, "limited", false, false, none⟩)] }
    [] ⟨"tr", "sp", "rq", "tk", "nn", 0, 1⟩ "pay" (.obj []) (fun _ => 7) "maybe sent"
    (some "failed") none none "" none none none none
    ⟨.REVIEW, "high_criticality_review_threshold", "risk-bound-exec-v2", "2.0.0",
      20 / 100, true⟩ rfl
  have h2 := c7_review_block_no_invoke Nat
    { service := "svc",
      tool_registry := [("pay", ⟨"pay", .HIGH, "limited", false, false, none⟩)] }
    [] ⟨"tr", "sp", "rq", "tk", "nn", 0, 1⟩ "pay" (.obj []) (fun _ => 7) "maybe sent"
    (some "failed") none none "" none (some "x") none none
    ⟨.BLOCK, "high_criticality_block_threshold", "risk-bound-exec-v2", "2.0.0",
      35 / 100, true⟩ rfl
  have hr := h1.1 rfl
  have hb := h2.2 rfl
  refine ⟨hr.1, (hr.2.2 rfl).1, hb.1, ?_⟩
  rcases hb.2.2 rfl with ⟨fn, hfn, -, -⟩ | ⟨-, hres, -⟩
  · exact absurd hfn (by simp)
  · exact hres

/-- C8 (amended): `intercept_tool_call` wraps the exporter call in no
handler, so an exporter failure propagates to the caller — the outcome is
the exporter's error, not the computed result — and the shadow lane is
not scheduled. -/
theorem c8_exporter_error_propagates (α : Type) (I : Interceptor α)
    (ex : TraceContext → Except String Unit) (e : String)
    (hex : I.exporter = some ex) (hfail : ∀ c, ex c = .error e)
    (seen : List (String × Int)) (env : CallEnv) (tool_name : String) (tool_args : Json)
    (tool_fn : Json → α) (model_answer : String) (trs rc pti : Option String)
    (prompt : String) (sa pph rid sid : Option String) :
    (intercept_tool_call I seen env tool_name tool_args tool_fn model_answer trs rc pti
      prompt sa pph rid sid).result = .error e ∧
    (intercept_tool_call I seen env tool_name tool_args tool_fn model_answer trs rc pti
      prompt sa pph rid sid).shadow_scheduled = false := by
  obtain ⟨Iserv, Iex, Ireg, Icfg, Iis, Iit, Ivs, Ivr, Ifr, Iv2⟩ := I
  simp only [] at hex
  subst hex
  unfold intercept_tool_call
  generalize args_hash tool_args = ah
  generalize hrv : compute_risk_vector prompt model_answer rc sa trs pph = rv0
  simp only []
  rw [hfail _]
  exact ⟨rfl, rfl⟩

/-- C8 witness: a failing exporter turns a concrete intercepted call's
outcome into the exporter's error, with no shadow lane scheduled. -/
theorem c8_exporter_error_propagates_witness :
    (intercept_tool_call
      ({ service := "svc", exporter := some (fun _ => .error "exporter_down") } :
        Interceptor Nat) [] ⟨"tr", "sp", "rq", "tk", "nn", 0, 1⟩ "t" (.obj [])
      (fun _ => 42) "a" none none none "" none none none none).result =
        .error "exporter_down" ∧
    (intercept_tool_call
      ({ service := "svc", exporter := some (fun _ => .error "exporter_down") } :
        Interceptor Nat) [] ⟨"tr", "sp", "rq", "tk", "nn", 0, 1⟩ "t" (.obj [])
      (fun _ => 42) "a" none none none "" none none none none).shadow_scheduled =
        false :=
  c8_exporter_error_propagates Nat
    { service := "svc", exporter := some (fun _ => .error "exporter_down") }
    (fun _ => .error "exporter_down") "exporter_down" rfl (fun _ => rfl)
    [] ⟨"tr", "sp", "rq", "tk", "nn", 0, 1⟩ "t" (.obj []) (fun _ => 42) "a" none none
    none "" none none none none

/-- C8 counterexample to the spec as written: in the same concrete run the
wrapped tool IS invoked and returns 42, yet the caller does not receive
`.ok (Sum.inl 42)` — the exporter's exception surfaces instead of being
swallowed. -/
theorem c8_counterexample :
    (intercept_tool_call
      ({ service := "svc", exporter := some (fun _ => .error "exporter_down") } :
        Interceptor Nat) [] ⟨"tr", "sp", "rq", "tk", "nn", 0, 1⟩ "t" (.obj [])
      (fun _ => 42) "a" none none none "" none none none none).tool_invoked = true ∧
    (intercept_tool_call
      ({ service := "svc", exporter := some (fun _ => .error "exporter_down") } :
        Interceptor Nat) [] ⟨"tr", "sp", "rq", "tk", "nn", 0, 1⟩ "t" (.obj [])
      (fun _ => 42) "a" none none none "" none none none none).result ≠
        .ok (Sum.inl 42) := by
  constructor
  · rfl
  · intro hcontra
    have h1 : (Except.error "exporter_down" : Except String (PyAny Nat)) =
        .ok (Sum.inl 42) := hcontra
    simp at h1

end MCPObs
